import Mathlib

/-!
Shallow embedding of the confidential-output wallet core of the repository:
the wallet transaction-record data model (`net_processing.h`), the
blind-sum reconciler and commitment verifier RPCs, and the frozen-output
listing / tracing algorithms (`wallet/coincontrol.h`).
-/

/-- Modelled from the spec: output kinds plain / data / blinded (CT) /
anonymous (RingCT); tag values are those of the repository's transaction
primitives, which are not under src/. Only distinctness is relied upon. -/
def OUTPUT_NULL : Nat := 0

def OUTPUT_STANDARD : Nat := 1

def OUTPUT_DATA : Nat := 2

def OUTPUT_CT : Nat := 3

def OUTPUT_RINGCT : Nat := 4

/-- OutputRecordFlags, src/net_processing.h. -/
def ORF_OWNED : Nat := 1

def ORF_FROM : Nat := 2

def ORF_CHANGE : Nat := 4

def ORF_SPENT : Nat := 8

def ORF_BLIND_IN : Nat := 2 ^ 14

def ORF_ANON_IN : Nat := 2 ^ 15

/-- Placeholder output index for reconstructed amounts (src/net_processing.h). -/
def OR_PLACEHOLDER_N : Nat := 0xFFFF

/-- Modelled from the spec: the distinguished "abandoned" sentinel block hash
(`extern const uint256 ABANDON_HASH`; its definition is not under src/).
Only that it is fixed and distinct from the null hash is relied upon. -/
def ABANDON_HASH : Nat := 2 ^ 256 - 1

structure COutPoint where
  hash : Nat
  n : Nat
deriving DecidableEq, Repr

structure COutputRecord where
  nType : Nat := 0
  nFlags : Nat := 0
  n : Nat := 0
  nValue : Int := -1
  scriptPubKey : List Nat := []
  sNarration : String := ""
  vPath : List Nat := []
deriving DecidableEq, Repr

structure CTransactionRecord where
  blockHash : Nat := 0
  block_height : Int := 0
  nFlags : Nat := 0
  nIndex : Int := 0
  nBlockTime : Int := 0
  nTimeReceived : Int := 0
  nFee : Int := 0
  vin : List COutPoint := []
  vout : List COutputRecord := []
deriving DecidableEq, Repr

def CTransactionRecord.IsAbandoned (rtx : CTransactionRecord) : Bool :=
  rtx.blockHash == ABANDON_HASH

def CTransactionRecord.isConflicted (rtx : CTransactionRecord) : Bool :=
  rtx.nIndex == -1

def CTransactionRecord.HashUnset (rtx : CTransactionRecord) : Bool :=
  rtx.blockHash == 0 || rtx.blockHash == ABANDON_HASH

def CTransactionRecord.GetTxTime (rtx : CTransactionRecord) : Int :=
  if rtx.HashUnset = true ∨ rtx.nIndex < 0 then rtx.nTimeReceived
  else min rtx.nTimeReceived rtx.nBlockTime

def CTransactionRecord.HaveChange (rtx : CTransactionRecord) : Bool :=
  rtx.vout.any (fun r => r.nFlags.land ORF_CHANGE != 0)

def CTransactionRecord.TotalOutput (rtx : CTransactionRecord) : Int :=
  rtx.vout.foldl (fun nTotal r => nTotal + r.nValue) 0

/-- Modelled from the spec: `getOutput(n)` returns the record or NotFound
(§4.1); the member is declared in src/net_processing.h but its definition
is not under src/. -/
def CTransactionRecord.GetOutput (rtx : CTransactionRecord) (n : Nat) : Option COutputRecord :=
  rtx.vout.find? (fun r => r.n == n)

theorem foldl_add_eq_sum (f : COutputRecord → Int) (l : List COutputRecord) (c : Int) :
    l.foldl (fun a r => a + f r) c = c + (l.map f).sum := by
  induction l generalizing c with
  | nil => simp
  | cons r t ih => simp [ih, add_assoc]

/-- C7: `TotalOutput` is the plain sum of `nValue` over all output records,
with no special-casing of the `-1` "unknown" sentinel. -/
theorem C7_TotalOutput_sums_all (rtx : CTransactionRecord) :
    rtx.TotalOutput = (rtx.vout.map (fun r => r.nValue)).sum := by
  unfold CTransactionRecord.TotalOutput
  simpa using foldl_add_eq_sum (fun r => r.nValue) rtx.vout 0

/-- C8: the effective wallet time is `min(receiptTime, blockTime)` exactly when
the record is confirmed (block hash set to a real block, i.e. neither null nor
the abandon sentinel, and non-negative output-position index), and is the
receipt time otherwise. -/
theorem C8_GetTxTime (rtx : CTransactionRecord) :
    rtx.GetTxTime =
      if rtx.blockHash ≠ 0 ∧ rtx.blockHash ≠ ABANDON_HASH ∧ 0 ≤ rtx.nIndex then
        min rtx.nTimeReceived rtx.nBlockTime
      else rtx.nTimeReceived := by
  unfold CTransactionRecord.GetTxTime CTransactionRecord.HashUnset
  by_cases h0 : rtx.blockHash = 0 <;> by_cases ha : rtx.blockHash = ABANDON_HASH <;>
    by_cases hi : rtx.nIndex < 0 <;> simp [h0, ha, hi] <;> omega

/-- The order of the secp256k1 group, i.e. of its scalar field. -/
def secp256k1_order : Nat :=
  0xFFFFFFFFFFFFFFFFFFFFFFFFFFFFFFFEBAAEDCE6AF48A03BBFD25E8CD0364141

instance : NeZero secp256k1_order := ⟨by decide⟩

/-- Modelled from the spec: the external `secp256k1_pedersen_blind_sum`
primitive, called with `npositive` leading scalars counted positively; its
fixed algebraic contract (§4.4) is scalar addition and subtraction in the
group's scalar field, returning the 32-byte scalar
`sum(first npositive) - sum(rest) (mod curve order)`. -/
def pedersen_blind_sum (blinds : List Nat) (npositive : Nat) : Nat :=
  (((blinds.take npositive).map (Nat.cast : Nat → ZMod secp256k1_order)).sum -
    ((blinds.drop npositive).map (Nat.cast : Nat → ZMod secp256k1_order)).sum).val

/-- generatematchingblindfactor (src/wallet/coincontrol.h lines 8966-9048):
validates that both arrays are non-empty 32-byte entries, that the input
array is at least as long as the output array, then calls
`secp256k1_pedersen_blind_sum` with the inputs counted positively. -/
def generatematchingblindfactor (inputs outputs : List Nat) :
    Except String Nat :=
  if inputs.length < 1 then
    .error "Inputs should contain at least one element."
  else if outputs.length < 1 then
    .error "Outputs should contain at least one element."
  else if inputs.length < outputs.length then
    .error "Outputs should be at least one element smaller than the inputs array."
  else if inputs.all (fun b => b < 2 ^ 256) && outputs.all (fun b => b < 2 ^ 256) then
    .ok (pedersen_blind_sum (inputs ++ outputs) inputs.length)
  else
    .error "Blinding factor must be 32 bytes and hex encoded."

/-- C2 (amended): when additionally the provided output-blind list is no
longer than the input-blind list — the code rejects the call otherwise —
the computed closing blind is a 32-byte scalar that balances the sums:
`sum(outputBlinds) + closing = sum(inputBlinds)` in the scalar field. -/
theorem C2_generatematchingblindfactor_balances
    (ins outs : List Nat)
    (h1 : ins ≠ []) (h2 : outs ≠ []) (h3 : outs.length ≤ ins.length)
    (h4 : ∀ b ∈ ins, b < 2 ^ 256) (h5 : ∀ b ∈ outs, b < 2 ^ 256) :
    ∃ b : Nat, generatematchingblindfactor ins outs = .ok b ∧ b < 2 ^ 256 ∧
      (outs.map (Nat.cast : Nat → ZMod secp256k1_order)).sum + (b : ZMod secp256k1_order)
        = (ins.map (Nat.cast : Nat → ZMod secp256k1_order)).sum := by
  refine ⟨pedersen_blind_sum (ins ++ outs) ins.length, ?_, ?_, ?_⟩
  · unfold generatematchingblindfactor
    have hi : ¬ ins.length < 1 := by
      cases ins with
      | nil => exact absurd rfl h1
      | cons a t => simp
    have ho : ¬ outs.length < 1 := by
      cases outs with
      | nil => exact absurd rfl h2
      | cons a t => simp
    have hio : ¬ ins.length < outs.length := by omega
    have hall : (ins.all (fun b => b < 2 ^ 256) && outs.all (fun b => b < 2 ^ 256)) = true := by
      simp_all [List.all_eq_true]
    rw [if_neg hi, if_neg ho, if_neg hio, if_pos hall]
  · calc pedersen_blind_sum (ins ++ outs) ins.length < secp256k1_order := ZMod.val_lt _
      _ < 2 ^ 256 := by decide
  · unfold pedersen_blind_sum
    rw [List.take_left, List.drop_left]
    rw [ZMod.natCast_rightInverse _]
    ring

/-- C2 counterexample: with the non-empty blind lists `[0]` (inputs) and
`[0, 0]` (outputs) the operation returns an error instead of a closing
scalar, refuting the claim's unconditional "for every non-empty list"
precondition. -/
theorem C2_counterexample :
    ([0] : List Nat) ≠ [] ∧ ([0, 0] : List Nat) ≠ [] ∧
    generatematchingblindfactor [0] [0, 0] =
      .error "Outputs should be at least one element smaller than the inputs array." := by
  exact ⟨by decide, by decide, rfl⟩

/-- C2 witness: a concrete run of the amended theorem. -/
theorem C2_witness :
    ∃ b : Nat, generatematchingblindfactor [1] [2] = .ok b ∧ b < 2 ^ 256 ∧
      (([2] : List Nat).map (Nat.cast : Nat → ZMod secp256k1_order)).sum + (b : ZMod secp256k1_order)
        = (([1] : List Nat).map (Nat.cast : Nat → ZMod secp256k1_order)).sum :=
  C2_generatematchingblindfactor_balances [1] [2] (by decide) (by decide)
    (by decide) (by decide) (by decide)

def hexDigit (n : Nat) : Char :=
  if n < 10 then Char.ofNat (48 + n) else Char.ofNat (87 + n)

def hexByte (b : Nat) : String :=
  String.mk [hexDigit (b / 16), hexDigit (b % 16)]

/-- HexStr: lower-case hex encoding of a byte span. -/
def HexStr (l : List Nat) : String :=
  String.join (l.map hexByte)

/-- verifycommitment (src/wallet/coincontrol.h lines 8818-8852): validates the
33-byte commitment and 32-byte blinding factor, recomputes a Pedersen
commitment from `(blind, value)` via the external `secp256k1_pedersen_commit`
primitive — passed here as the function argument `pedersen_commit`, consumed
as a black box — and byte-compares it to the supplied commitment, throwing a
mismatch error naming the expected bytes when they differ. -/
def verifycommitment (pedersen_commit : Nat → Int → Option (List Nat))
    (vchCommitment : List Nat) (blind : Nat) (nValue : Int) :
    Except String Bool :=
  if ¬ (vchCommitment.length = 33 ∧ vchCommitment.all (fun b => b < 256)) then
    .error "Commitment must be 33 bytes and hex encoded."
  else if ¬ blind < 2 ^ 256 then
    .error "Blinding factor must be 32 bytes and hex encoded."
  else
    match pedersen_commit blind nValue with
    | none => .error "secp256k1_pedersen_commit failed."
    | some commitment =>
      if vchCommitment ≠ commitment then
        .error ("Mismatched commitment, expected " ++ HexStr commitment)
      else
        .ok true

/-- C3: for a valid `(blind, value)` pair, verifying the recomputed commitment
against itself succeeds, and any supplied 33-byte commitment that does not
byte-equal the recomputed one is rejected with a mismatch error, never
returning true. The Pedersen primitive is quantified as an arbitrary black
box, per its fixed external contract. -/
theorem C3_verifycommitment
    (pedersen_commit : Nat → Int → Option (List Nat))
    (blind : Nat) (nValue : Int) (c : List Nat)
    (hb : blind < 2 ^ 256)
    (hc : pedersen_commit blind nValue = some c)
    (hlen : c.length = 33) (hbytes : c.all (fun b => b < 256)) :
    verifycommitment pedersen_commit c blind nValue = .ok true ∧
    ∀ supplied : List Nat, supplied.length = 33 →
      supplied.all (fun b => b < 256) → supplied ≠ c →
      verifycommitment pedersen_commit supplied blind nValue =
        .error ("Mismatched commitment, expected " ++ HexStr c) := by
  constructor
  · unfold verifycommitment
    rw [if_neg (by simp [hlen, hbytes]), if_neg (by omega), hc]
    simp
  · intro supplied hslen hsbytes hne
    unfold verifycommitment
    rw [if_neg (by simp [hslen, hsbytes]), if_neg (by omega), hc]
    simp [hne]

/-- C3 witness: a concrete Pedersen black box, pair and mutated commitment. -/
theorem C3_verifycommitment_witness :
    verifycommitment (fun _ _ => some (List.replicate 33 0))
        (List.replicate 33 0) 7 5 = .ok true ∧
    verifycommitment (fun _ _ => some (List.replicate 33 0))
        (1 :: List.replicate 32 0) 7 5 =
      .error ("Mismatched commitment, expected " ++ HexStr (List.replicate 33 0)) := by
  have h := C3_verifycommitment (fun _ _ => some (List.replicate 33 0)) 7 5
    (List.replicate 33 0) (by decide) rfl (by decide) (by decide)
  exact ⟨h.1, h.2 (1 :: List.replicate 32 0) (by decide) (by decide) (by decide)⟩

/-- resultOf a rewind primitive call inside fundrawtransactionfrom. -/
inductive RewindResult where
  | ok (blind : Nat) (amount : Nat)
  | failed (msg : String)
deriving DecidableEq, Repr

/-- The rangeproof-rewind branch of fundrawtransactionfrom
(src/wallet/coincontrol.h lines 8603-8619): the proof form is selected by
length alone — proofs shorter than 1000 bytes go through the external
bulletproof rewind primitive, all others through the external legacy
rangeproof rewind primitive; each is consumed as a black box taking the
proof, the commitment and the nonce, and a primitive failure raises the
corresponding RPC error. -/
def rewindOutputBlind
    (bulletproof_rewind legacy_rewind : List Nat → List Nat → Nat → Option (Nat × Nat))
    (rangeproof commitment : List Nat) (nonce : Nat) (outIdx : Nat) :
    RewindResult :=
  if rangeproof.length < 1000 then
    match bulletproof_rewind rangeproof commitment nonce with
    | none =>
      .failed ("secp256k1_bulletproof_rangeproof_rewind failed, output "
        ++ toString outIdx ++ ".")
    | some (blind, amount) => .ok blind amount
  else
    match legacy_rewind rangeproof commitment nonce with
    | none =>
      .failed ("secp256k1_rangeproof_rewind failed, output "
        ++ toString outIdx ++ ".")
    | some (blind, amount) => .ok blind amount

/-- C9: the rewind path is chosen by proof length alone: for every proof
shorter than 1000 bytes the result is exactly the bulletproof primitive's
result (independent of the legacy primitive), and for every proof of 1000
bytes or more it is exactly the legacy primitive's result (independent of
the bulletproof primitive). -/
theorem C9_rewind_length_branch
    (bp bp' legacy legacy' : List Nat → List Nat → Nat → Option (Nat × Nat))
    (proof commitment : List Nat) (nonce outIdx : Nat) :
    (proof.length < 1000 →
      rewindOutputBlind bp legacy proof commitment nonce outIdx =
        (match bp proof commitment nonce with
          | none => .failed ("secp256k1_bulletproof_rangeproof_rewind failed, output "
              ++ toString outIdx ++ ".")
          | some (blind, amount) => .ok blind amount) ∧
      rewindOutputBlind bp legacy proof commitment nonce outIdx =
        rewindOutputBlind bp legacy' proof commitment nonce outIdx) ∧
    (1000 ≤ proof.length →
      rewindOutputBlind bp legacy proof commitment nonce outIdx =
        (match legacy proof commitment nonce with
          | none => .failed ("secp256k1_rangeproof_rewind failed, output "
              ++ toString outIdx ++ ".")
          | some (blind, amount) => .ok blind amount) ∧
      rewindOutputBlind bp legacy proof commitment nonce outIdx =
        rewindOutputBlind bp' legacy proof commitment nonce outIdx) := by
  constructor
  · intro h
    unfold rewindOutputBlind
    rw [if_pos h, if_pos h]
    exact ⟨rfl, rfl⟩
  · intro h
    unfold rewindOutputBlind
    rw [if_neg (by omega), if_neg (by omega)]
    exact ⟨rfl, rfl⟩

/-- C9 witness: concrete short and long proofs through concrete primitives. -/
theorem C9_rewind_length_branch_witness :
    rewindOutputBlind (fun _ _ _ => some (3, 4)) (fun _ _ _ => none)
        [] [] 0 2 = .ok 3 4 ∧
    rewindOutputBlind (fun _ _ _ => some (3, 4)) (fun _ _ _ => none)
        (List.replicate 1000 0) [] 0 2 =
      .failed "secp256k1_rangeproof_rewind failed, output 2." := by
  have h1 := (C9_rewind_length_branch (fun _ _ _ => some (3, 4)) (fun _ _ _ => some (3, 4))
    (fun _ _ _ => none) (fun _ _ _ => none) [] [] 0 2).1 (by decide)
  have h2 := (C9_rewind_length_branch (fun _ _ _ => some (3, 4)) (fun _ _ _ => some (3, 4))
    (fun _ _ _ => none) (fun _ _ _ => none) (List.replicate 1000 0) [] 0 2).2
    (by simp only [List.length_replicate, le_refl])
  exact ⟨h1.1, h2.1⟩

structure TracedOutput where
  m_n : Int := -1
  m_type : Nat := OUTPUT_NULL
  m_value : Int := 0
  m_blinding_factor : Nat := 0
  m_spentby : Nat := 0
  m_is_spent : Bool := false
  m_forced_include : Bool := false
  m_spendable : Bool := false
  m_anon_index : Int := -1
  m_anon_spend_key : Option Nat := none
deriving DecidableEq, Repr

structure TracedTx where
  m_input_type : Nat := OUTPUT_NULL
  m_wallet_name : String := ""
  m_inputs : List COutPoint := []
  m_outputs : List (Nat × TracedOutput) := []
  m_input_amount_traced_to_plain : Int := 0
deriving DecidableEq, Repr

def TracedTx.lookupOutput (t : TracedTx) (n : Nat) : Option TracedOutput :=
  (t.m_outputs.find? (fun p => p.1 == n)).map Prod.snd

def TracedTx.setOutput (t : TracedTx) (n : Nat) (o : TracedOutput) : TracedTx :=
  { t with m_outputs := (n, o) :: t.m_outputs.filter (fun p => p.1 != n) }

/-- The `std::map<uint256, TracedTx>` of visited transactions. -/
abbrev TraceState := List (Nat × TracedTx)

def stFind (st : TraceState) (h : Nat) : Option TracedTx :=
  (st.find? (fun p => p.1 == h)).map Prod.snd

def stGetOr (st : TraceState) (h : Nat) : TracedTx :=
  (stFind st h).getD {}

def stSet (st : TraceState) (h : Nat) (t : TracedTx) : TraceState :=
  (h, t) :: st.filter (fun p => p.1 != h)

/-- Models the substring test `find(needle) != npos` on std strings. -/
def strContains (hay needle : String) : Bool :=
  decide (needle.data <:+: hay.data)

/-- The wallet-name aggregation of traceFrozenPrevout lines 6074-6076:
append the display name, comma separated, unless already contained. -/
def appendWalletName (cur name : String) : String :=
  if strContains cur name then cur
  else cur ++ (if cur = "" then "" else ", ") ++ name

def COutPoint.str (op : COutPoint) : String :=
  "COutPoint(" ++ toString op.hash ++ ", " ++ toString op.n ++ ")"

/-- The view of one `CStoredTransaction` the tracer reads: the type and
RingCT public key of each stored output of the embedded transaction, and
the per-output blinding-factor list queried through `GetBlind`. -/
structure StoredTxView where
  isRingCtOut : Nat → Bool
  anonPk : Nat → Nat
  getBlind : Nat → Option Nat

/-- The per-wallet state the trace and listing code reads: display name,
lock flags, `mapRecords`, the stored-transaction database, the spent test
and the key store (keyed here directly by the anon output public key, an
injective renaming of `CPubKey::GetID`). -/
structure WalletView where
  name : String
  isLocked : Bool
  fUnlockForStakingOnly : Bool
  mapRecords : List (Nat × CTransactionRecord)
  readStoredTx : Nat → Option StoredTxView
  isSpent : Nat → Nat → Bool
  getKey : Nat → Option Nat

/-- The chain-index lookups and consensus parameters consumed as external
interfaces (spec §6). -/
structure ChainView where
  readRCTOutputLink : Nat → Option Int
  isBlacklistedAnonOutput : Int → Bool
  isWhitelistedAnonOutput : Int → Bool
  isFrozenBlindOutput : Nat → Bool
  m_frozen_blinded_height : Int

def recFind (m : List (Nat × CTransactionRecord)) (h : Nat) : Option CTransactionRecord :=
  (m.find? (fun p => p.1 == h)).map Prod.snd

/-- One iteration of traceFrozenPrevout's loop over the loaded wallets
(src/wallet/coincontrol.h lines 6056-6130): find the transaction record,
insert/update the `TracedTx`, recurse on the inputs when the record's input
type is shielded (via the `recurse` continuation), then record the traced
output, warning on missing stored data, anon-index links, blinds or keys. -/
def tracePrevoutWalletBody
    (traceVin : Nat → List COutPoint → TraceState → List String → Option (TraceState × List String))
    (chain : ChainView) (w : WalletView) (op_trace : COutPoint) (txid_spentby : Nat)
    (st : TraceState) (ws : List String) : Option (TraceState × List String) :=
  match recFind w.mapRecords op_trace.hash with
  | none => some (st, ws)
  | some rtx =>
    let traced_tx := stGetOr st op_trace.hash
    let input_type := if rtx.nFlags.land ORF_ANON_IN != 0 then OUTPUT_RINGCT
      else if rtx.nFlags.land ORF_BLIND_IN != 0 then OUTPUT_CT else OUTPUT_STANDARD
    let traced_tx := { traced_tx with
      m_input_type := input_type,
      m_wallet_name := appendWalletName traced_tx.m_wallet_name w.name }
    let st := stSet st op_trace.hash traced_tx
    let step :=
      if input_type ≠ OUTPUT_STANDARD then
        traceVin op_trace.hash rtx.vin st ws
      else some (st, ws)
    match step with
    | none => none
    | some (st, ws) =>
      match rtx.GetOutput op_trace.n with
      | none => some (st, ws)
      | some r =>
        match w.readStoredTx op_trace.hash with
        | none => some (st, ws ++ ["ReadStoredTx failed " ++ toString op_trace.hash])
        | some stx =>
          let anon_pubkey := if r.nType == OUTPUT_RINGCT then stx.anonPk r.n else 0
          let linked :=
            if r.nType == OUTPUT_RINGCT then
              match chain.readRCTOutputLink anon_pubkey with
              | none => ((0 : Int), ws ++ ["ReadRCTOutputLink failed " ++ op_trace.str])
              | some idx => (idx, ws)
            else ((0 : Int), ws)
          let anon_index := linked.1
          let ws := linked.2
          let traced_tx := stGetOr st op_trace.hash
          let traced_output := (traced_tx.lookupOutput r.n).getD {}
          let traced_output := { traced_output with
            m_type := if r.nType == OUTPUT_RINGCT then OUTPUT_RINGCT else OUTPUT_CT,
            m_n := (r.n : Int),
            m_anon_index := anon_index,
            m_spentby := txid_spentby }
          let blinded :=
            if traced_output.m_blinding_factor == 0 then
              let traced_output := { traced_output with
                m_value := r.nValue,
                m_is_spent := w.isSpent op_trace.hash op_trace.n }
              match stx.getBlind r.n with
              | none => (traced_output, ws ++ ["GetBlind failed " ++ op_trace.str])
              | some b => ({ traced_output with m_blinding_factor := b }, ws)
            else (traced_output, ws)
          let traced_output := blinded.1
          let ws := blinded.2
          let keyed :=
            if r.nType == OUTPUT_RINGCT && traced_output.m_anon_spend_key.isNone then
              match w.getKey anon_pubkey with
              | none => (traced_output, ws ++ ["GetKey failed " ++ op_trace.str])
              | some k => ({ traced_output with m_anon_spend_key := some k }, ws)
            else (traced_output, ws)
          let st := stSet st op_trace.hash (traced_tx.setOutput r.n keyed.1)
          some (st, keyed.2)

/-- The loop over a shielded record's inputs inside traceFrozenPrevout
(lines 6078-6083): recurse on each previous outpoint, then append it to the
parent's `m_inputs` if not already present. -/
def traceVinGo
    (recurse : COutPoint → Nat → TraceState → List String → Option (TraceState × List String))
    (parent : Nat) :
    List COutPoint → TraceState → List String → Option (TraceState × List String)
  | [], st, ws => some (st, ws)
  | op :: rest, st, ws =>
    match recurse op parent st ws with
    | none => none
    | some (st, ws) =>
      let t := stGetOr st parent
      let t := if op ∈ t.m_inputs then t else { t with m_inputs := t.m_inputs ++ [op] }
      traceVinGo recurse parent rest (stSet st parent t) ws

/-- The loop of traceFrozenPrevout over all loaded wallets. -/
def walkWalletsGo
    (recurse : COutPoint → Nat → TraceState → List String → Option (TraceState × List String))
    (chain : ChainView) (op_trace : COutPoint) (txid_spentby : Nat) :
    List WalletView → TraceState → List String → Option (TraceState × List String)
  | [], st, ws => some (st, ws)
  | w :: rest, st, ws =>
    match tracePrevoutWalletBody (traceVinGo recurse) chain w op_trace txid_spentby st ws with
    | none => none
    | some (st, ws) => walkWalletsGo recurse chain op_trace txid_spentby rest st ws

/-- traceFrozenPrevout (src/wallet/coincontrol.h lines 6044-6131), with an
explicit recursion-depth fuel: `none` models a run that exhausts every
finite depth bound, i.e. unbounded recursion of the C++ function. The
early return fires only when the visited map already records this exact
outpoint's output. -/
def traceFrozenPrevout (wallets : List WalletView) (chain : ChainView) :
    Nat → COutPoint → Nat → TraceState → List String → Option (TraceState × List String)
  | 0, _, _, _, _ => none
  | fuel + 1, op_trace, txid_spentby, st, ws =>
    match stFind st op_trace.hash with
    | some t =>
      if (t.lookupOutput op_trace.n).isSome then some (st, ws)
      else walkWalletsGo (traceFrozenPrevout wallets chain fuel) chain op_trace txid_spentby
        wallets st ws
    | none => walkWalletsGo (traceFrozenPrevout wallets chain fuel) chain op_trace txid_spentby
        wallets st ws

/-- stFind after stSet at the same key. -/
theorem stFind_stSet_self (st : TraceState) (h : Nat) (t : TracedTx) :
    stFind (stSet st h t) h = some t := by
  simp [stFind, stSet, List.find?]

theorem find?_filter_ne {α : Type} (l : List (Nat × α)) (h h' : Nat) (hne : h' ≠ h) :
    (l.filter (fun p => p.1 != h)).find? (fun p => p.1 == h') =
      l.find? (fun p => p.1 == h') := by
  induction l with
  | nil => rfl
  | cons a rest ih =>
    rw [List.filter_cons]
    by_cases ha : a.1 = h
    · rw [if_neg (by simp [ha]), ih,
        List.find?_cons_of_neg rest (by simp [ha, Ne.symm hne])]
    · rw [if_pos (by simp [ha])]
      by_cases hb : a.1 = h'
      · rw [List.find?_cons_of_pos _ (by simp [hb]),
          List.find?_cons_of_pos _ (by simp [hb])]
      · rw [List.find?_cons_of_neg _ (by simp [hb]),
          List.find?_cons_of_neg _ (by simp [hb]), ih]

/-- stFind after stSet at a different key. -/
theorem stFind_stSet_ne (st : TraceState) (h h' : Nat) (t : TracedTx) (hne : h' ≠ h) :
    stFind (stSet st h t) h' = stFind st h' := by
  simp only [stFind, stSet, List.find?, show ((h == h') = false) by simp [Ne.symm hne]]
  rw [find?_filter_ne st h h' hne]

/-- Unfolding the fueled tracer when the early return does not fire. -/
theorem trace_succ_eq_walk (wallets : List WalletView) (chain : ChainView) (fuel : Nat)
    (op : COutPoint) (sb : Nat) (st : TraceState) (ws : List String)
    (h : ∀ t, stFind st op.hash = some t → t.lookupOutput op.n = none) :
    traceFrozenPrevout wallets chain (fuel + 1) op sb st ws =
      walkWalletsGo (traceFrozenPrevout wallets chain fuel) chain op sb wallets st ws := by
  cases hf : stFind st op.hash with
  | none => simp only [traceFrozenPrevout, hf]
  | some t => simp only [traceFrozenPrevout, hf, h t hf, Option.isSome_none,
      Bool.false_eq_true, if_false]

/-- A single-wallet walk propagates a failing (fuel-exhausted) body. -/
theorem walk_single_none
    (f : COutPoint → Nat → TraceState → List String → Option (TraceState × List String))
    (chain : ChainView) (op : COutPoint) (sb : Nat) (w : WalletView)
    (st : TraceState) (ws : List String)
    (h : tracePrevoutWalletBody (traceVinGo f) chain w op sb st ws = none) :
    walkWalletsGo f chain op sb [w] st ws = none := by
  simp only [walkWalletsGo, h]

/-- The vin loop propagates fuel exhaustion of its first recursion. -/
theorem traceVin_head_none
    (f : COutPoint → Nat → TraceState → List String → Option (TraceState × List String))
    (parent : Nat) (op : COutPoint) (rest : List COutPoint)
    (st : TraceState) (ws : List String) (h : f op parent st ws = none) :
    traceVinGo f parent (op :: rest) st ws = none := by
  simp only [traceVinGo, h]

/-- A wallet body whose record has a shielded input type and a single input
exhausts fuel whenever the recursion on that input does. -/
theorem body_none_of_vin_recursion_none
    (f : COutPoint → Nat → TraceState → List String → Option (TraceState × List String))
    (chain : ChainView) (w : WalletView) (op nxt : COutPoint) (sb : Nat)
    (st : TraceState) (ws : List String) (rtx : CTransactionRecord)
    (hr : recFind w.mapRecords op.hash = some rtx)
    (hflag : (rtx.nFlags.land ORF_ANON_IN != 0) = true)
    (hvin : rtx.vin = [nxt])
    (hf : f nxt op.hash (stSet st op.hash
        { stGetOr st op.hash with
          m_input_type := OUTPUT_RINGCT,
          m_wallet_name := appendWalletName (stGetOr st op.hash).m_wallet_name w.name }) ws
      = none) :
    tracePrevoutWalletBody (traceVinGo f) chain w op sb st ws = none := by
  unfold tracePrevoutWalletBody
  simp only [hr]
  rw [if_pos hflag, hvin]
  rw [if_pos (show OUTPUT_RINGCT ≠ OUTPUT_STANDARD by decide)]
  rw [traceVin_head_none f op.hash nxt [] _ ws hf]

/-- Transaction 1 of the synthetic corrupt cycle: shielded (anon) input
from outpoint (2, 0), one owned RingCT output. -/
def cycRtxA : CTransactionRecord :=
  { nFlags := ORF_ANON_IN, vin := [⟨2, 0⟩],
    vout := [{ nType := OUTPUT_RINGCT, nFlags := ORF_OWNED, n := 0, nValue := 20000 }] }

/-- Transaction 2 of the synthetic corrupt cycle: shielded input from
outpoint (1, 0), one owned RingCT output. -/
def cycRtxB : CTransactionRecord :=
  { nFlags := ORF_ANON_IN, vin := [⟨1, 0⟩],
    vout := [{ nType := OUTPUT_RINGCT, nFlags := ORF_OWNED, n := 0, nValue := 20000 }] }

/-- The single loaded wallet holding the two corrupt records. -/
def cycWallet : WalletView :=
  { name := "wallet.dat", isLocked := false, fUnlockForStakingOnly := false,
    mapRecords := [(1, cycRtxA), (2, cycRtxB)],
    readStoredTx := fun _ => none, isSpent := fun _ _ => false,
    getKey := fun _ => none }

def cycChain : ChainView :=
  { readRCTOutputLink := fun _ => none, isBlacklistedAnonOutput := fun _ => false,
    isWhitelistedAnonOutput := fun _ => false, isFrozenBlindOutput := fun _ => false,
    m_frozen_blinded_height := 1000 }

/-- No output of transaction 1 or 2 is recorded yet in the visited map:
this is the situation throughout the cyclic descent, since
traceFrozenPrevout records an output only after recursing on the inputs. -/
def cycNoOuts (st : TraceState) : Prop :=
  (∀ t, stFind st 1 = some t → t.lookupOutput 0 = none) ∧
  (∀ t, stFind st 2 = some t → t.lookupOutput 0 = none)

theorem cycNoOuts_stSet (st : TraceState) (h : Nat) (t : TracedTx)
    (hout : t.m_outputs = (stGetOr st h).m_outputs) (hst : cycNoOuts st) :
    cycNoOuts (stSet st h t) := by
  have key : ∀ k : Nat, (∀ v, stFind st k = some v → v.lookupOutput 0 = none) →
      ∀ u, stFind (stSet st h t) k = some u → u.lookupOutput 0 = none := by
    intro k hk u hu
    by_cases hkh : k = h
    · subst hkh
      rw [stFind_stSet_self] at hu
      cases hu
      unfold TracedTx.lookupOutput
      rw [hout]
      cases hv : stFind st k with
      | none => simp [stGetOr, hv]
      | some v =>
        have hg : stGetOr st k = v := by simp [stGetOr, hv]
        rw [hg]
        have hvn := hk v hv
        unfold TracedTx.lookupOutput at hvn
        exact hvn
    · rw [stFind_stSet_ne st h k t hkh] at hu
      exact hk u hu
  exact ⟨key 1 hst.1, key 2 hst.2⟩

/-- On the two-transaction cycle, the trace exhausts every finite recursion
depth: starting from any visited map in which neither corrupt transaction
has a recorded output yet, the walk from either outpoint consumes all fuel. -/
theorem cyc_trace_none (fuel : Nat) : ∀ (sb : Nat) (st : TraceState) (ws : List String),
    cycNoOuts st →
    traceFrozenPrevout [cycWallet] cycChain fuel ⟨1, 0⟩ sb st ws = none ∧
    traceFrozenPrevout [cycWallet] cycChain fuel ⟨2, 0⟩ sb st ws = none := by
  induction fuel with
  | zero => intro sb st ws _; exact ⟨rfl, rfl⟩
  | succ n ih =>
    intro sb st ws hst
    constructor
    · rw [trace_succ_eq_walk _ _ _ _ _ _ _ hst.1]
      apply walk_single_none
      refine body_none_of_vin_recursion_none (traceFrozenPrevout [cycWallet] cycChain n)
        cycChain cycWallet ⟨1, 0⟩ ⟨2, 0⟩ sb st ws cycRtxA rfl (by decide) rfl ?_
      exact (ih 1 _ ws (cycNoOuts_stSet st 1
        { stGetOr st 1 with
          m_input_type := OUTPUT_RINGCT,
          m_wallet_name := appendWalletName (stGetOr st 1).m_wallet_name cycWallet.name }
        rfl hst)).2
    · rw [trace_succ_eq_walk _ _ _ _ _ _ _ hst.2]
      apply walk_single_none
      refine body_none_of_vin_recursion_none (traceFrozenPrevout [cycWallet] cycChain n)
        cycChain cycWallet ⟨2, 0⟩ ⟨1, 0⟩ sb st ws cycRtxB rfl (by decide) rfl ?_
      exact (ih 2 _ ws (cycNoOuts_stSet st 2
        { stGetOr st 2 with
          m_input_type := OUTPUT_RINGCT,
          m_wallet_name := appendWalletName (stGetOr st 2).m_wallet_name cycWallet.name }
        rfl hst)).1

/-- C1: on the synthetic corrupt cycle (transaction 1 lists an input from
transaction 2 and vice versa), the frozen-output trace of outpoint (1, 0)
does not terminate: no recursion-depth bound suffices, because an expanded
transaction's output is recorded in the visited map only after the
recursion over its inputs, so the early return never fires inside the
cycle and each transaction id is re-expanded unboundedly — contradicting
the claimed strict expand-once guarantee. -/
theorem C1_trace_cycle_unbounded_recursion :
    ¬ ∃ (fuel : Nat) (r : TraceState × List String),
      traceFrozenPrevout [cycWallet] cycChain fuel ⟨1, 0⟩ 0 [] [] = some r := by
  rintro ⟨fuel, r, hr⟩
  have hempty : cycNoOuts [] := by
    constructor <;> · intro t ht; simp [stFind] at ht
  rw [(cyc_trace_none fuel 0 [] [] hempty).1] at hr
  cases hr

/-- The hardcoded minimum value (in satoshis) for a blinded output to count
as frozen (src/wallet/coincontrol.h line 6536). -/
def min_frozen_blinded_value : Int := 10000

/-- One row of the `list_frozen_outputs` result. -/
structure FrozenOutputEntry where
  typeAnon : Bool
  spendable : Bool
  txid : Nat
  n : Nat
  amount : Int
  anon_index : Int := 0
  blacklisted : Bool := false
deriving DecidableEq, Repr

/-- The per-output body of the `list_frozen_outputs` scan
(src/wallet/coincontrol.h lines 6580-6627): `none` models `continue`
(wrong type, not owned, value below the frozen minimum, or already spent);
otherwise the listed row, with spendability decided by the blacklist /
whitelist / frozen-blind checks against `max_frozen_output_spendable`. -/
def listFrozenEntryForOutput (w : WalletView) (chain : ChainView)
    (max_frozen_output_spendable : Int) (txid : Nat) (r : COutputRecord) :
    Option FrozenOutputEntry :=
  if (r.nType != OUTPUT_RINGCT && r.nType != OUTPUT_CT) ||
      r.nFlags.land ORF_OWNED == 0 ||
      decide (r.nValue < min_frozen_blinded_value) ||
      w.isSpent txid r.n then
    none
  else if r.nType == OUTPUT_RINGCT then
    let ring :=
      match w.readStoredTx txid with
      | none => (false, (0 : Int))
      | some stx =>
        if !(stx.isRingCtOut r.n) then (false, 0)
        else
          match chain.readRCTOutputLink (stx.anonPk r.n) with
          | none => (false, 0)
          | some idx =>
            if chain.isBlacklistedAnonOutput idx then (false, idx)
            else if !(chain.isWhitelistedAnonOutput idx) &&
                decide (max_frozen_output_spendable < r.nValue) then (false, idx)
            else (true, idx)
    some { typeAnon := true, spendable := ring.1, txid := txid, n := r.n,
           amount := r.nValue, anon_index := ring.2,
           blacklisted := chain.isBlacklistedAnonOutput ring.2 }
  else
    some { typeAnon := false,
           spendable := !(chain.isFrozenBlindOutput txid &&
             decide (max_frozen_output_spendable < r.nValue)),
           txid := txid, n := r.n, amount := r.nValue }

/-- The record loop of `list_frozen_outputs` (lines 6571-6628), before the
final sort: records outside the frozen height window [1, frozen height]
are skipped entirely. -/
def listFrozenCollect (w : WalletView) (chain : ChainView)
    (max_frozen_output_spendable : Int) : List FrozenOutputEntry :=
  w.mapRecords.foldl (fun acc p =>
    if p.2.block_height < 1 ∨ chain.m_frozen_blinded_height < p.2.block_height then acc
    else acc ++ p.2.vout.filterMap
      (fun r => listFrozenEntryForOutput w chain max_frozen_output_spendable p.1 r)) []

def insertByAmount (e : FrozenOutputEntry) :
    List FrozenOutputEntry → List FrozenOutputEntry
  | [] => [e]
  | x :: xs => if x.amount < e.amount then e :: x :: xs else x :: insertByAmount e xs

/-- The final `std::sort` by descending amount (line 6632). -/
def sortByAmountDesc (l : List FrozenOutputEntry) : List FrozenOutputEntry :=
  l.foldr insertByAmount []

/-- debugwallet `list_frozen_outputs` for the request's wallet. -/
def listFrozenOutputs (w : WalletView) (chain : ChainView)
    (max_frozen_output_spendable : Int) : List FrozenOutputEntry :=
  sortByAmountDesc (listFrozenCollect w chain max_frozen_output_spendable)

theorem mem_insertByAmount (e a : FrozenOutputEntry) (l : List FrozenOutputEntry) :
    a ∈ insertByAmount e l ↔ a = e ∨ a ∈ l := by
  induction l with
  | nil => simp [insertByAmount]
  | cons x xs ih =>
    unfold insertByAmount
    by_cases hx : x.amount < e.amount
    · simp [hx]
    · simp only [hx, if_false, List.mem_cons, ih]
      tauto

theorem mem_sortByAmountDesc (a : FrozenOutputEntry) (l : List FrozenOutputEntry) :
    a ∈ sortByAmountDesc l ↔ a ∈ l := by
  induction l with
  | nil => simp [sortByAmountDesc]
  | cons x xs ih =>
    simp only [sortByAmountDesc, List.foldr] at ih ⊢
    rw [mem_insertByAmount, ih, List.mem_cons]

theorem mem_listFrozenCollect (w : WalletView) (chain : ChainView) (mx : Int)
    (e : FrozenOutputEntry) :
    e ∈ listFrozenCollect w chain mx ↔
      ∃ p ∈ w.mapRecords,
        ¬ (p.2.block_height < 1 ∨ chain.m_frozen_blinded_height < p.2.block_height) ∧
        ∃ r ∈ p.2.vout, listFrozenEntryForOutput w chain mx p.1 r = some e := by
  unfold listFrozenCollect
  have gen : ∀ (l : List (Nat × CTransactionRecord)) (acc : List FrozenOutputEntry),
      e ∈ l.foldl (fun acc p =>
        if p.2.block_height < 1 ∨ chain.m_frozen_blinded_height < p.2.block_height then acc
        else acc ++ p.2.vout.filterMap
          (fun r => listFrozenEntryForOutput w chain mx p.1 r)) acc ↔
      e ∈ acc ∨ ∃ p ∈ l,
        ¬ (p.2.block_height < 1 ∨ chain.m_frozen_blinded_height < p.2.block_height) ∧
        ∃ r ∈ p.2.vout, listFrozenEntryForOutput w chain mx p.1 r = some e := by
    intro l
    induction l with
    | nil => simp
    | cons p rest ih =>
      intro acc
      simp only [List.foldl_cons]
      by_cases hp : p.2.block_height < 1 ∨ chain.m_frozen_blinded_height < p.2.block_height
      · rw [if_pos hp, ih]
        simp only [List.mem_cons]
        constructor
        · rintro (h | ⟨q, hq, hcond, hr⟩)
          · exact Or.inl h
          · exact Or.inr ⟨q, Or.inr hq, hcond, hr⟩
        · rintro (h | ⟨q, (rfl | hq), hcond, hr⟩)
          · exact Or.inl h
          · exact absurd hp hcond
          · exact Or.inr ⟨q, hq, hcond, hr⟩
      · rw [if_neg hp, ih]
        simp only [List.mem_append, List.mem_filterMap, List.mem_cons]
        constructor
        · rintro ((h | ⟨r, hr, hre⟩) | ⟨q, hq, hcond, hr⟩)
          · exact Or.inl h
          · exact Or.inr ⟨p, Or.inl rfl, hp, r, hr, hre⟩
          · exact Or.inr ⟨q, Or.inr hq, hcond, hr⟩
        · rintro (h | ⟨q, (rfl | hq), hcond, ⟨r, hr, hre⟩⟩)
          · exact Or.inl (Or.inl h)
          · exact Or.inl (Or.inr ⟨r, hr, hre⟩)
          · exact Or.inr ⟨q, hq, hcond, r, hr, hre⟩
  rw [gen]
  simp

theorem listEntry_ct (w : WalletView) (chain : ChainView) (mx : Int) (txid : Nat)
    (r : COutputRecord)
    (ht : r.nType = OUTPUT_CT)
    (ho : r.nFlags.land ORF_OWNED ≠ 0)
    (hv : min_frozen_blinded_value ≤ r.nValue)
    (hs : w.isSpent txid r.n = false) :
    listFrozenEntryForOutput w chain mx txid r =
      some { typeAnon := false,
             spendable := !(chain.isFrozenBlindOutput txid && decide (mx < r.nValue)),
             txid := txid, n := r.n, amount := r.nValue } := by
  have h1 : ((r.nType != OUTPUT_RINGCT && r.nType != OUTPUT_CT) ||
      r.nFlags.land ORF_OWNED == 0 ||
      decide (r.nValue < min_frozen_blinded_value) ||
      w.isSpent txid r.n) = false := by
    simp only [Bool.or_eq_false_iff, Bool.and_eq_false_iff, bne_eq_false_iff_eq,
      beq_eq_false_iff_ne, ne_eq, decide_eq_false_iff_not, not_lt]
    exact ⟨⟨⟨Or.inr ht, ho⟩, hv⟩, hs⟩
  have h2 : (r.nType == OUTPUT_RINGCT) = false := by
    simp [ht, OUTPUT_CT, OUTPUT_RINGCT]
  unfold listFrozenEntryForOutput
  rw [h1, h2]
  simp only [Bool.false_eq_true, if_false]

/-- C4: two owned, unspent blinded (CT) outputs of the same frozen
transaction, examined by the listing (height inside the frozen window,
values at or above the 10000 minimum, not spent): the one at or below
`max_frozen_output_spendable` is listed with spendable = true, the one
above it with spendable = false. -/
theorem C4_listFrozenOutputs_threshold
    (w : WalletView) (chain : ChainView) (mx : Int) (txid : Nat)
    (rtx : CTransactionRecord) (r1 r2 : COutputRecord)
    (hmem : (txid, rtx) ∈ w.mapRecords)
    (hh1 : 1 ≤ rtx.block_height) (hh2 : rtx.block_height ≤ chain.m_frozen_blinded_height)
    (hr1 : r1 ∈ rtx.vout) (hr2 : r2 ∈ rtx.vout)
    (ht1 : r1.nType = OUTPUT_CT) (ht2 : r2.nType = OUTPUT_CT)
    (ho1 : r1.nFlags.land ORF_OWNED ≠ 0) (ho2 : r2.nFlags.land ORF_OWNED ≠ 0)
    (hs1 : w.isSpent txid r1.n = false) (hs2 : w.isSpent txid r2.n = false)
    (hfrozen : chain.isFrozenBlindOutput txid = true)
    (hv1lo : min_frozen_blinded_value ≤ r1.nValue) (hv1hi : r1.nValue ≤ mx)
    (hmx : min_frozen_blinded_value ≤ mx) (hv2 : mx < r2.nValue) :
    (∃ e ∈ listFrozenOutputs w chain mx,
      e.txid = txid ∧ e.n = r1.n ∧ e.amount = r1.nValue ∧ e.spendable = true) ∧
    (∃ e ∈ listFrozenOutputs w chain mx,
      e.txid = txid ∧ e.n = r2.n ∧ e.amount = r2.nValue ∧ e.spendable = false) := by
  have hheight : ¬ (rtx.block_height < 1 ∨ chain.m_frozen_blinded_height < rtx.block_height) := by
    push_neg
    exact ⟨hh1, hh2⟩
  constructor
  · have he1 := listEntry_ct w chain mx txid r1 ht1 ho1 hv1lo hs1
    rw [show decide (mx < r1.nValue) = false by simp [not_lt.mpr hv1hi]] at he1
    simp only [Bool.and_false, Bool.not_false] at he1
    refine ⟨FrozenOutputEntry.mk false true txid r1.n r1.nValue 0 false,
      ?_, rfl, rfl, rfl, rfl⟩
    unfold listFrozenOutputs
    rw [mem_sortByAmountDesc, mem_listFrozenCollect]
    exact ⟨(txid, rtx), hmem, hheight, r1, hr1, he1⟩
  · have he2 := listEntry_ct w chain mx txid r2 ht2 ho2 (by omega) hs2
    rw [show decide (mx < r2.nValue) = true by simp [hv2], hfrozen] at he2
    simp only [Bool.and_true, Bool.not_true] at he2
    refine ⟨FrozenOutputEntry.mk false false txid r2.n r2.nValue 0 false,
      ?_, rfl, rfl, rfl, rfl⟩
    unfold listFrozenOutputs
    rw [mem_sortByAmountDesc, mem_listFrozenCollect]
    exact ⟨(txid, rtx), hmem, hheight, r2, hr2, he2⟩

/-- A concrete frozen transaction with one low- and one high-value CT output. -/
def c4Rtx : CTransactionRecord :=
  { block_height := 5,
    vout := [{ nType := OUTPUT_CT, nFlags := ORF_OWNED, n := 0, nValue := 20000 },
             { nType := OUTPUT_CT, nFlags := ORF_OWNED, n := 1, nValue := 90000 }] }

def c4Wallet : WalletView :=
  { name := "w", isLocked := false, fUnlockForStakingOnly := false,
    mapRecords := [(9, c4Rtx)],
    readStoredTx := fun _ => none, isSpent := fun _ _ => false,
    getKey := fun _ => none }

def c4Chain : ChainView :=
  { readRCTOutputLink := fun _ => none, isBlacklistedAnonOutput := fun _ => false,
    isWhitelistedAnonOutput := fun _ => false, isFrozenBlindOutput := fun _ => true,
    m_frozen_blinded_height := 100 }

/-- C4 witness: a concrete wallet and chain exhibiting the scenario. -/
theorem C4_listFrozenOutputs_threshold_witness :
    (∃ e ∈ listFrozenOutputs c4Wallet c4Chain 50000,
      e.txid = 9 ∧ e.n = 0 ∧ e.amount = 20000 ∧ e.spendable = true) ∧
    (∃ e ∈ listFrozenOutputs c4Wallet c4Chain 50000,
      e.txid = 9 ∧ e.n = 1 ∧ e.amount = 90000 ∧ e.spendable = false) :=
  C4_listFrozenOutputs_threshold c4Wallet c4Chain 50000 9 c4Rtx
    { nType := OUTPUT_CT, nFlags := ORF_OWNED, n := 0, nValue := 20000 }
    { nType := OUTPUT_CT, nFlags := ORF_OWNED, n := 1, nValue := 90000 }
    (by simp [c4Wallet]) (by decide) (by decide)
    (by simp [c4Rtx]) (by simp [c4Rtx])
    rfl rfl (by decide) (by decide) rfl rfl rfl
    (by decide) (by decide) (by decide) (by decide)

/-- Accumulator state of the top-level scan of traceFrozenOutputs
(src/wallet/coincontrol.h lines 6243-6247 and 6316-6325). -/
structure ScanState where
  top_level : List COutPoint := []
  set_forced : List COutPoint := []
  total_traced : Int := 0
  num_traced : Nat := 0
  num_searched : Nat := 0
  warnings : List String := []
deriving Repr

/-- The per-output body of the top-level scan (lines 6265-6326): height and
candidate filters, each overridable by force-inclusion through the
extra-outputs set; an unreadable anon index skips the output with a warning
even when forced; spendable outputs are skipped unless forced; survivors are
inserted into the top-level trace set (and the forced set when forced). -/
def scanOutput (w : WalletView) (chain : ChainView) (min_value mx : Int)
    (extra : List COutPoint) (txid : Nat) (in_height : Bool) (r : COutputRecord)
    (s : ScanState) : ScanState :=
  let force_include := decide ((⟨txid, r.n⟩ : COutPoint) ∈ extra)
  if !in_height && !force_include then s
  else if ((r.nType != OUTPUT_RINGCT && r.nType != OUTPUT_CT) ||
      r.nFlags.land ORF_OWNED == 0 ||
      decide (r.nValue < min_value)) && !force_include then s
  else if w.isSpent txid r.n && !force_include then s
  else
    let ring :=
      if r.nType == OUTPUT_RINGCT then
        match w.readStoredTx txid with
        | none => none
        | some stx =>
          if !(stx.isRingCtOut r.n) then none
          else
            match chain.readRCTOutputLink (stx.anonPk r.n) with
            | none => none
            | some idx => some idx
      else some (-1 : Int)
    match ring with
    | none =>
      { s with warnings := s.warnings ++
          ["Failed to get anon index for " ++ toString txid ++ "." ++ toString r.n] }
    | some anon_index =>
      let is_spendable :=
        !(r.nType == OUTPUT_RINGCT && chain.isBlacklistedAnonOutput anon_index)
      let is_spendable :=
        if decide (mx < r.nValue) then
          if r.nType == OUTPUT_RINGCT then
            (if !(chain.isWhitelistedAnonOutput anon_index) then false else is_spendable)
          else if r.nType == OUTPUT_CT then
            (if chain.isFrozenBlindOutput txid then false else is_spendable)
          else is_spendable
        else is_spendable
      if is_spendable && !force_include then s
      else if decide ((⟨txid, r.n⟩ : COutPoint) ∈ s.top_level) then s
      else
        { s with
          top_level := s.top_level ++ [⟨txid, r.n⟩],
          set_forced := if force_include then s.set_forced ++ [⟨txid, r.n⟩] else s.set_forced,
          total_traced := s.total_traced + r.nValue,
          num_traced := s.num_traced + 1 }

/-- The per-record body of the top-level scan (lines 6254-6327). -/
def scanRecord (w : WalletView) (chain : ChainView) (min_value mx : Int)
    (extra : List COutPoint) (p : Nat × CTransactionRecord) (s : ScanState) : ScanState :=
  let s := { s with num_searched := s.num_searched + 1 }
  let in_height := !(decide (p.2.block_height < 1) ||
    decide (chain.m_frozen_blinded_height < p.2.block_height))
  p.2.vout.foldl (fun s r => scanOutput w chain min_value mx extra p.1 in_height r s) s

/-- The top-level scan of traceFrozenOutputs over all loaded wallets
(lines 6248-6328). -/
def scanTopLevel (wallets : List WalletView) (chain : ChainView) (min_value mx : Int)
    (extra : List COutPoint) : ScanState :=
  wallets.foldl (fun s w =>
    w.mapRecords.foldl (fun s p => scanRecord w chain min_value mx extra p s) s) {}

theorem scanOutput_top_level_cases (w : WalletView) (chain : ChainView)
    (min_value mx : Int) (extra : List COutPoint) (txid : Nat) (in_height : Bool)
    (r : COutputRecord) (s : ScanState) :
    ∀ op ∈ (scanOutput w chain min_value mx extra txid in_height r s).top_level,
      op ∈ s.top_level ∨
      (op = ⟨txid, r.n⟩ ∧ ((⟨txid, r.n⟩ : COutPoint) ∈ extra ∨
        (in_height = true ∧ (r.nType = OUTPUT_RINGCT ∨ r.nType = OUTPUT_CT) ∧
          r.nFlags.land ORF_OWNED ≠ 0 ∧ min_value ≤ r.nValue))) := by
  intro op hop
  simp only [scanOutput] at hop
  by_cases h1 : (!in_height && !decide ((⟨txid, r.n⟩ : COutPoint) ∈ extra)) = true
  · rw [if_pos h1] at hop
    exact Or.inl hop
  · rw [if_neg h1] at hop
    by_cases h2 : (((r.nType != OUTPUT_RINGCT && r.nType != OUTPUT_CT) ||
        r.nFlags.land ORF_OWNED == 0 ||
        decide (r.nValue < min_value)) &&
        !decide ((⟨txid, r.n⟩ : COutPoint) ∈ extra)) = true
    · rw [if_pos h2] at hop
      exact Or.inl hop
    · rw [if_neg h2] at hop
      have hfacts : (⟨txid, r.n⟩ : COutPoint) ∈ extra ∨
          (in_height = true ∧ (r.nType = OUTPUT_RINGCT ∨ r.nType = OUTPUT_CT) ∧
            r.nFlags.land ORF_OWNED ≠ 0 ∧ min_value ≤ r.nValue) := by
        by_cases hforce : (⟨txid, r.n⟩ : COutPoint) ∈ extra
        · exact Or.inl hforce
        · right
          rw [show decide ((⟨txid, r.n⟩ : COutPoint) ∈ extra) = false by simp [hforce]]
            at h1 h2
          simp only [Bool.not_false, Bool.and_true, Bool.not_eq_true] at h1 h2
          have hx1 : (r.nType != OUTPUT_RINGCT && r.nType != OUTPUT_CT) = false := by
            simp only [Bool.or_eq_false_iff] at h2
            exact h2.1.1
          have hx2 : (r.nFlags.land ORF_OWNED == 0) = false := by
            simp only [Bool.or_eq_false_iff] at h2
            exact h2.1.2
          have hx3 : decide (r.nValue < min_value) = false := by
            simp only [Bool.or_eq_false_iff] at h2
            exact h2.2
          have hlt := of_decide_eq_false hx3
          refine ⟨by simpa using h1, ?_, by simpa using hx2, by omega⟩
          simp only [Bool.and_eq_false_iff, bne_eq_false_iff_eq] at hx1
          exact hx1
      have hfin : op ∈ s.top_level ∨ op = ⟨txid, r.n⟩ := by
        clear hfacts h1 h2
        repeat' split at hop
        all_goals first
          | exact Or.inl hop
          | (simp only [List.mem_append, List.mem_singleton] at hop; tauto)
      rcases hfin with h | rfl
      · exact Or.inl h
      · exact Or.inr ⟨rfl, hfacts⟩

theorem foldl_scanOutput_cases (w : WalletView) (chain : ChainView)
    (min_value mx : Int) (extra : List COutPoint) (txid : Nat) (in_height : Bool)
    (l : List COutputRecord) :
    ∀ (s : ScanState),
      ∀ op ∈ (l.foldl (fun s r => scanOutput w chain min_value mx extra txid in_height r s)
          s).top_level,
        op ∈ s.top_level ∨ ∃ r ∈ l, op = (⟨txid, r.n⟩ : COutPoint) ∧
          ((⟨txid, r.n⟩ : COutPoint) ∈ extra ∨
            (in_height = true ∧ (r.nType = OUTPUT_RINGCT ∨ r.nType = OUTPUT_CT) ∧
              r.nFlags.land ORF_OWNED ≠ 0 ∧ min_value ≤ r.nValue)) := by
  induction l with
  | nil => intro s op hop; exact Or.inl hop
  | cons a rest ih =>
    intro s op hop
    rw [List.foldl_cons] at hop
    rcases ih _ op hop with h | ⟨r, hr, he, hgood⟩
    · rcases scanOutput_top_level_cases w chain min_value mx extra txid in_height a s op h
        with h' | ⟨he, hgood⟩
      · exact Or.inl h'
      · exact Or.inr ⟨a, List.mem_cons_self a rest, he, hgood⟩
    · exact Or.inr ⟨r, List.mem_cons_of_mem a hr, he, hgood⟩

theorem scanRecord_top_level_cases (w : WalletView) (chain : ChainView)
    (min_value mx : Int) (extra : List COutPoint) (p : Nat × CTransactionRecord)
    (s : ScanState) :
    ∀ op ∈ (scanRecord w chain min_value mx extra p s).top_level,
      op ∈ s.top_level ∨ ∃ r ∈ p.2.vout, op = (⟨p.1, r.n⟩ : COutPoint) ∧
        ((⟨p.1, r.n⟩ : COutPoint) ∈ extra ∨
          (1 ≤ p.2.block_height ∧ p.2.block_height ≤ chain.m_frozen_blinded_height ∧
            (r.nType = OUTPUT_RINGCT ∨ r.nType = OUTPUT_CT) ∧
            r.nFlags.land ORF_OWNED ≠ 0 ∧ min_value ≤ r.nValue)) := by
  intro op hop
  simp only [scanRecord] at hop
  rcases foldl_scanOutput_cases w chain min_value mx extra p.1 _ p.2.vout _ op hop
    with h | ⟨r, hr, he, hgood⟩
  · exact Or.inl h
  · refine Or.inr ⟨r, hr, he, ?_⟩
    rcases hgood with h | ⟨hh, hrest⟩
    · exact Or.inl h
    · refine Or.inr ⟨?_, ?_, hrest⟩
      · have := hh
        simp only [Bool.not_eq_true', Bool.or_eq_false_iff, decide_eq_false_iff_not,
          not_lt] at this
        omega
      · have := hh
        simp only [Bool.not_eq_true', Bool.or_eq_false_iff, decide_eq_false_iff_not,
          not_lt] at this
        omega

theorem scanTopLevel_cases (wallets : List WalletView) (chain : ChainView)
    (min_value mx : Int) (extra : List COutPoint) :
    ∀ op ∈ (scanTopLevel wallets chain min_value mx extra).top_level,
      op ∈ extra ∨ ∃ w ∈ wallets, ∃ p ∈ w.mapRecords, ∃ r ∈ p.2.vout,
        op = (⟨p.1, r.n⟩ : COutPoint) ∧
        1 ≤ p.2.block_height ∧ p.2.block_height ≤ chain.m_frozen_blinded_height ∧
        (r.nType = OUTPUT_RINGCT ∨ r.nType = OUTPUT_CT) ∧
        r.nFlags.land ORF_OWNED ≠ 0 ∧ min_value ≤ r.nValue := by
  have recs : ∀ (w : WalletView) (l : List (Nat × CTransactionRecord)) (s : ScanState),
      ∀ op ∈ (l.foldl (fun s p => scanRecord w chain min_value mx extra p s) s).top_level,
        op ∈ s.top_level ∨ op ∈ extra ∨ ∃ p ∈ l, ∃ r ∈ p.2.vout,
          op = (⟨p.1, r.n⟩ : COutPoint) ∧
          1 ≤ p.2.block_height ∧ p.2.block_height ≤ chain.m_frozen_blinded_height ∧
          (r.nType = OUTPUT_RINGCT ∨ r.nType = OUTPUT_CT) ∧
          r.nFlags.land ORF_OWNED ≠ 0 ∧ min_value ≤ r.nValue := by
    intro w l
    induction l with
    | nil => intro s op hop; exact Or.inl hop
    | cons p rest ih =>
      intro s op hop
      rw [List.foldl_cons] at hop
      rcases ih _ op hop with h | h | ⟨q, hq, hrest⟩
      · rcases scanRecord_top_level_cases w chain min_value mx extra p s op h
          with h' | ⟨r, hr, he, hgood⟩
        · exact Or.inl h'
        · rcases hgood with hx | hx
          · exact Or.inr (Or.inl (he ▸ hx))
          · exact Or.inr (Or.inr ⟨p, List.mem_cons_self p rest, r, hr, he, hx⟩)
      · exact Or.inr (Or.inl h)
      · exact Or.inr (Or.inr ⟨q, List.mem_cons_of_mem p hq, hrest⟩)
  have walls : ∀ (l : List WalletView) (s : ScanState),
      ∀ op ∈ (l.foldl (fun s w =>
          w.mapRecords.foldl (fun s p => scanRecord w chain min_value mx extra p s) s)
          s).top_level,
        op ∈ s.top_level ∨ op ∈ extra ∨ ∃ w ∈ l, ∃ p ∈ w.mapRecords, ∃ r ∈ p.2.vout,
          op = (⟨p.1, r.n⟩ : COutPoint) ∧
          1 ≤ p.2.block_height ∧ p.2.block_height ≤ chain.m_frozen_blinded_height ∧
          (r.nType = OUTPUT_RINGCT ∨ r.nType = OUTPUT_CT) ∧
          r.nFlags.land ORF_OWNED ≠ 0 ∧ min_value ≤ r.nValue := by
    intro l
    induction l with
    | nil => intro s op hop; exact Or.inl hop
    | cons w rest ih =>
      intro s op hop
      rw [List.foldl_cons] at hop
      rcases ih _ op hop with h | h | ⟨w', hw', hrest⟩
      · rcases recs w w.mapRecords s op h with h' | h' | ⟨p, hp, hrest⟩
        · exact Or.inl h'
        · exact Or.inr (Or.inl h')
        · exact Or.inr (Or.inr ⟨w, List.mem_cons_self w rest, p, hp, hrest⟩)
      · exact Or.inr (Or.inl h)
      · exact Or.inr (Or.inr ⟨w', List.mem_cons_of_mem w hw', hrest⟩)
  intro op hop
  unfold scanTopLevel at hop
  rcases walls wallets {} op hop with h | h
  · exact absurd h (by simp)
  · exact h

theorem scanOutput_top_level_keep (w : WalletView) (chain : ChainView)
    (min_value mx : Int) (extra : List COutPoint) (txid : Nat) (in_height : Bool)
    (r : COutputRecord) (s : ScanState) (op : COutPoint) (h : op ∈ s.top_level) :
    op ∈ (scanOutput w chain min_value mx extra txid in_height r s).top_level := by
  simp only [scanOutput]
  repeat' split
  all_goals first
    | exact h
    | (simp only [List.mem_append]; exact Or.inl h)

theorem foldl_scanOutput_keep (w : WalletView) (chain : ChainView)
    (min_value mx : Int) (extra : List COutPoint) (txid : Nat) (in_height : Bool)
    (l : List COutputRecord) :
    ∀ (s : ScanState) (op : COutPoint), op ∈ s.top_level →
      op ∈ (l.foldl (fun s r => scanOutput w chain min_value mx extra txid in_height r s)
        s).top_level := by
  induction l with
  | nil => intro s op h; exact h
  | cons a rest ih =>
    intro s op h
    rw [List.foldl_cons]
    exact ih _ op (scanOutput_top_level_keep w chain min_value mx extra txid in_height a s op h)

theorem scanRecord_top_level_keep (w : WalletView) (chain : ChainView)
    (min_value mx : Int) (extra : List COutPoint) (p : Nat × CTransactionRecord)
    (s : ScanState) (op : COutPoint) (h : op ∈ s.top_level) :
    op ∈ (scanRecord w chain min_value mx extra p s).top_level := by
  simp only [scanRecord]
  exact foldl_scanOutput_keep w chain min_value mx extra p.1 _ p.2.vout _ op h

theorem foldl_scanRecord_keep (w : WalletView) (chain : ChainView)
    (min_value mx : Int) (extra : List COutPoint) (l : List (Nat × CTransactionRecord)) :
    ∀ (s : ScanState) (op : COutPoint), op ∈ s.top_level →
      op ∈ (l.foldl (fun s p => scanRecord w chain min_value mx extra p s) s).top_level := by
  induction l with
  | nil => intro s op h; exact h
  | cons p rest ih =>
    intro s op h
    rw [List.foldl_cons]
    exact ih _ op (scanRecord_top_level_keep w chain min_value mx extra p s op h)

/-- A force-included CT output always reaches the top-level set: every
filter of the scan is overridden by force-inclusion and the CT arm has no
anon-index lookup to fail. -/
theorem scanOutput_forced_ct (w : WalletView) (chain : ChainView)
    (min_value mx : Int) (extra : List COutPoint) (txid : Nat) (in_height : Bool)
    (r : COutputRecord) (s : ScanState)
    (hf : (⟨txid, r.n⟩ : COutPoint) ∈ extra) (ht : r.nType = OUTPUT_CT) :
    (⟨txid, r.n⟩ : COutPoint) ∈
      (scanOutput w chain min_value mx extra txid in_height r s).top_level := by
  simp only [scanOutput]
  rw [show decide ((⟨txid, r.n⟩ : COutPoint) ∈ extra) = true by simp [hf]]
  simp only [Bool.not_true, Bool.and_false, Bool.false_eq_true, if_false]
  rw [show (r.nType == OUTPUT_RINGCT) = false by simp [ht, OUTPUT_CT, OUTPUT_RINGCT]]
  simp only [Bool.false_eq_true, if_false]
  by_cases hmem : (⟨txid, r.n⟩ : COutPoint) ∈ s.top_level
  · rw [if_pos (by simp [hmem])]
    exact hmem
  · rw [if_neg (by simp [hmem])]
    simp

theorem foldl_scanOutput_forced_ct (w : WalletView) (chain : ChainView)
    (min_value mx : Int) (extra : List COutPoint) (txid : Nat) (in_height : Bool)
    (r : COutputRecord) (l : List COutputRecord) (hr : r ∈ l)
    (hf : (⟨txid, r.n⟩ : COutPoint) ∈ extra) (ht : r.nType = OUTPUT_CT) :
    ∀ (s : ScanState),
      (⟨txid, r.n⟩ : COutPoint) ∈
        (l.foldl (fun s x => scanOutput w chain min_value mx extra txid in_height x s)
          s).top_level := by
  induction l with
  | nil => cases hr
  | cons a rest ih =>
    intro s
    rw [List.foldl_cons]
    rcases List.mem_cons.mp hr with rfl | hrr
    · exact foldl_scanOutput_keep w chain min_value mx extra txid in_height rest _ _
        (scanOutput_forced_ct w chain min_value mx extra txid in_height r s hf ht)
    · exact ih hrr _

theorem scanRecord_forced_ct (w : WalletView) (chain : ChainView)
    (min_value mx : Int) (extra : List COutPoint) (p : Nat × CTransactionRecord)
    (r : COutputRecord) (hr : r ∈ p.2.vout)
    (hf : (⟨p.1, r.n⟩ : COutPoint) ∈ extra) (ht : r.nType = OUTPUT_CT)
    (s : ScanState) :
    (⟨p.1, r.n⟩ : COutPoint) ∈ (scanRecord w chain min_value mx extra p s).top_level := by
  simp only [scanRecord]
  exact foldl_scanOutput_forced_ct w chain min_value mx extra p.1 _ r p.2.vout hr hf ht _

theorem foldl_scanRecord_forced_ct (w : WalletView) (chain : ChainView)
    (min_value mx : Int) (extra : List COutPoint) (l : List (Nat × CTransactionRecord))
    (p : Nat × CTransactionRecord) (hp : p ∈ l) (r : COutputRecord) (hr : r ∈ p.2.vout)
    (hf : (⟨p.1, r.n⟩ : COutPoint) ∈ extra) (ht : r.nType = OUTPUT_CT) :
    ∀ (s : ScanState),
      (⟨p.1, r.n⟩ : COutPoint) ∈
        (l.foldl (fun s q => scanRecord w chain min_value mx extra q s) s).top_level := by
  induction l with
  | nil => cases hp
  | cons a rest ih =>
    intro s
    rw [List.foldl_cons]
    rcases List.mem_cons.mp hp with rfl | hpp
    · exact foldl_scanRecord_keep w chain min_value mx extra rest _ _
        (scanRecord_forced_ct w chain min_value mx extra p r hr hf ht s)
    · exact ih hpp _

theorem scanTopLevel_forced_ct (wallets : List WalletView) (chain : ChainView)
    (min_value mx : Int) (extra : List COutPoint)
    (w : WalletView) (hw : w ∈ wallets)
    (p : Nat × CTransactionRecord) (hp : p ∈ w.mapRecords)
    (r : COutputRecord) (hr : r ∈ p.2.vout)
    (hf : (⟨p.1, r.n⟩ : COutPoint) ∈ extra) (ht : r.nType = OUTPUT_CT) :
    (⟨p.1, r.n⟩ : COutPoint) ∈
      (scanTopLevel wallets chain min_value mx extra).top_level := by
  unfold scanTopLevel
  have keepw : ∀ (l : List WalletView) (s : ScanState) (op : COutPoint),
      op ∈ s.top_level →
      op ∈ (l.foldl (fun s w' =>
        w'.mapRecords.foldl (fun s q => scanRecord w' chain min_value mx extra q s) s)
        s).top_level := by
    intro l
    induction l with
    | nil => intro s op h; exact h
    | cons a rest ih =>
      intro s op h
      rw [List.foldl_cons]
      exact ih _ op (foldl_scanRecord_keep a chain min_value mx extra a.mapRecords s op h)
  have hitw : ∀ (l : List WalletView), w ∈ l → ∀ (s : ScanState),
      (⟨p.1, r.n⟩ : COutPoint) ∈ (l.foldl (fun s w' =>
        w'.mapRecords.foldl (fun s q => scanRecord w' chain min_value mx extra q s) s)
        s).top_level := by
    intro l hwl
    induction l with
    | nil => cases hwl
    | cons a rest ih =>
      intro s
      rw [List.foldl_cons]
      rcases List.mem_cons.mp hwl with rfl | hww
      · exact keepw rest _ _
          (foldl_scanRecord_forced_ct w chain min_value mx extra w.mapRecords p hp r hr hf ht s)
      · exact ih hww _
  exact hitw wallets hw {}

theorem listEntry_some_inv (w : WalletView) (chain : ChainView) (mx : Int)
    (txid : Nat) (r : COutputRecord) (e : FrozenOutputEntry)
    (h : listFrozenEntryForOutput w chain mx txid r = some e) :
    min_frozen_blinded_value ≤ r.nValue ∧ e.txid = txid ∧ e.amount = r.nValue := by
  unfold listFrozenEntryForOutput at h
  by_cases hc : ((r.nType != OUTPUT_RINGCT && r.nType != OUTPUT_CT) ||
      r.nFlags.land ORF_OWNED == 0 ||
      decide (r.nValue < min_frozen_blinded_value) ||
      w.isSpent txid r.n) = true
  · rw [if_pos hc] at h
    cases h
  · rw [if_neg hc] at h
    have hx : decide (r.nValue < min_frozen_blinded_value) = false := by
      by_contra hxx
      rw [Bool.not_eq_false] at hxx
      exact hc (by simp [hxx])
    have hv := of_decide_eq_false hx
    split at h
    · cases h
      exact ⟨by omega, rfl, rfl⟩
    · cases h
      exact ⟨by omega, rfl, rfl⟩

/-- C10: frozen-candidate bounds. (a) Every row of the frozen-output
listing comes from a record whose height lies in [1, frozen height] and
has amount at least the hardcoded 10000 minimum. (b) Every outpoint the
tracer selects for top-level tracing either satisfies those bounds (owned,
blinded/anon, value at least the minimum, height in window) or was
force-included through the extra-outputs parameter. (c) A force-included
CT output of a known record always reaches the top-level set even when it
fails the bounds. -/
theorem C10_frozen_candidate_bounds
    (wallets : List WalletView) (w : WalletView) (chain : ChainView) (mx : Int)
    (extra : List COutPoint) :
    (∀ e ∈ listFrozenOutputs w chain mx,
      min_frozen_blinded_value ≤ e.amount ∧
      ∃ p ∈ w.mapRecords, p.1 = e.txid ∧ 1 ≤ p.2.block_height ∧
        p.2.block_height ≤ chain.m_frozen_blinded_height) ∧
    (∀ op ∈ (scanTopLevel wallets chain min_frozen_blinded_value mx extra).top_level,
      op ∈ extra ∨ ∃ w' ∈ wallets, ∃ p ∈ w'.mapRecords, ∃ r ∈ p.2.vout,
        op = (⟨p.1, r.n⟩ : COutPoint) ∧
        1 ≤ p.2.block_height ∧ p.2.block_height ≤ chain.m_frozen_blinded_height ∧
        (r.nType = OUTPUT_RINGCT ∨ r.nType = OUTPUT_CT) ∧
        r.nFlags.land ORF_OWNED ≠ 0 ∧ min_frozen_blinded_value ≤ r.nValue) ∧
    (∀ w' ∈ wallets, ∀ p ∈ w'.mapRecords, ∀ r ∈ p.2.vout,
      r.nType = OUTPUT_CT → (⟨p.1, r.n⟩ : COutPoint) ∈ extra →
      (⟨p.1, r.n⟩ : COutPoint) ∈
        (scanTopLevel wallets chain min_frozen_blinded_value mx extra).top_level) := by
  refine ⟨?_, ?_, ?_⟩
  · intro e he
    unfold listFrozenOutputs at he
    rw [mem_sortByAmountDesc, mem_listFrozenCollect] at he
    rcases he with ⟨p, hp, hcond, r, hr, hre⟩
    rcases listEntry_some_inv w chain mx p.1 r e hre with ⟨hv, htx, ham⟩
    push_neg at hcond
    exact ⟨by omega, p, hp, htx.symm, by omega, by omega⟩
  · exact scanTopLevel_cases wallets chain min_frozen_blinded_value mx extra
  · intro w' hw' p hp r hr ht hf
    exact scanTopLevel_forced_ct wallets chain min_frozen_blinded_value mx extra
      w' hw' p hp r hr hf ht

/-- An out-of-window, below-minimum record used to exercise force inclusion. -/
def c10Rtx : CTransactionRecord :=
  { block_height := 0,
    vout := [{ nType := OUTPUT_CT, nFlags := 0, n := 1, nValue := 5 }] }

def c10Wallet : WalletView :=
  { name := "w10", isLocked := false, fUnlockForStakingOnly := false,
    mapRecords := [(7, c10Rtx)],
    readStoredTx := fun _ => none, isSpent := fun _ _ => false,
    getKey := fun _ => none }

/-- C10 witness: with one record at height 0 and value 5 (failing both
bounds), the un-forced scan admits no outpoint outside the bounds, while
force-including (7, 1) brings it into the top-level set; and the listing
bound instantiates on the concrete C4 wallet. -/
theorem C10_frozen_candidate_bounds_witness :
    (∃ e ∈ listFrozenOutputs c4Wallet c4Chain 50000,
      min_frozen_blinded_value ≤ e.amount ∧
      ∃ p ∈ c4Wallet.mapRecords, p.1 = e.txid ∧ 1 ≤ p.2.block_height ∧
        p.2.block_height ≤ c4Chain.m_frozen_blinded_height) ∧
    (⟨7, 1⟩ : COutPoint) ∈
      (scanTopLevel [c10Wallet] c4Chain min_frozen_blinded_value 50000
        [⟨7, 1⟩]).top_level := by
  constructor
  · have hmem : FrozenOutputEntry.mk false true 9 0 20000 0 false ∈
        listFrozenOutputs c4Wallet c4Chain 50000 := by decide
    exact ⟨_, hmem,
      (C10_frozen_candidate_bounds [c10Wallet] c4Wallet c4Chain 50000 []).1 _ hmem⟩
  · exact (C10_frozen_candidate_bounds [c10Wallet] c4Wallet c4Chain 50000 [⟨7, 1⟩]).2.2
      c10Wallet (by simp) (7, c10Rtx) (by simp [c10Wallet])
      ({ nType := OUTPUT_CT, nFlags := 0, n := 1, nValue := 5 } : COutputRecord)
      (by simp [c10Rtx]) rfl (by simp)

/-- The per-record output fill of traceFrozenOutputs' final loop
(src/wallet/coincontrol.h lines 6362-6383): every owned shielded output of
an already-traced transaction that is not yet recorded is added, with
non-fatal warnings for unreadable anon-index links and missing blinding
factors. -/
def fillOutputsForRecord (w : WalletView) (chain : ChainView) (stx : StoredTxView)
    (txid : Nat) (l : List COutputRecord) (t : TracedTx) (ws : List String) :
    TracedTx × List String :=
  l.foldl (fun acc r =>
    if (r.nType != OUTPUT_RINGCT && r.nType != OUTPUT_CT) ||
        r.nFlags.land ORF_OWNED == 0 then acc
    else if (acc.1.lookupOutput r.n).isSome then acc
    else
      let link :=
        if r.nType == OUTPUT_RINGCT then
          match chain.readRCTOutputLink (stx.anonPk r.n) with
          | none => ((-1 : Int), acc.2 ++
              ["ReadRCTOutputLink failed " ++ toString txid ++ " " ++ toString r.n])
          | some idx => (idx, acc.2)
        else ((-1 : Int), acc.2)
      let blinded :=
        match stx.getBlind r.n with
        | none => ((0 : Nat), link.2 ++
            ["GetBlind failed " ++ toString txid ++ " " ++ toString r.n])
        | some b => (b, link.2)
      (acc.1.setOutput r.n
        { m_type := if r.nType == OUTPUT_RINGCT then OUTPUT_RINGCT else OUTPUT_CT,
          m_value := r.nValue, m_n := (r.n : Int), m_anon_index := link.1,
          m_is_spent := w.isSpent txid r.n, m_blinding_factor := blinded.1 },
       blinded.2)) (t, ws)

/-- The record loop of the output fill (lines 6347-6384) for one wallet:
records absent from the traced map are skipped silently; a missing stored
transaction produces a warning and skips only that record. -/
def fillWalletGo (w : WalletView) (chain : ChainView) :
    List (Nat × CTransactionRecord) → TraceState → List String →
    TraceState × List String
  | [], st, ws => (st, ws)
  | (txid, rtx) :: rest, st, ws =>
    match stFind st txid with
    | none => fillWalletGo w chain rest st ws
    | some t =>
      match w.readStoredTx txid with
      | none => fillWalletGo w chain rest st
          (ws ++ ["ReadStoredTx failed " ++ toString txid])
      | some stx =>
        let res := fillOutputsForRecord w chain stx txid rtx.vout t ws
        fillWalletGo w chain rest (stSet st txid res.1) res.2

/-- The output fill over all loaded wallets (lines 6342-6385). -/
def fillKnownOutputs (wallets : List WalletView) (chain : ChainView)
    (st : TraceState) (ws : List String) : TraceState × List String :=
  wallets.foldl (fun acc w => fillWalletGo w chain w.mapRecords acc.1 acc.2) (st, ws)

/-- The loop tracing each top-level outpoint (lines 6330-6339): run the
recursive tracer, ensure the transaction is present in the traced map, and
mark force-included outputs. -/
def traceTopLevelGo (wallets : List WalletView) (chain : ChainView) (fuel : Nat)
    (set_forced : List COutPoint) :
    List COutPoint → TraceState → List String → Option (TraceState × List String)
  | [], st, ws => some (st, ws)
  | op :: rest, st, ws =>
    match traceFrozenPrevout wallets chain fuel op 0 st ws with
    | none => none
    | some (st, ws) =>
      let t := stGetOr st op.hash
      let t :=
        if decide (op ∈ set_forced) then
          let o := (t.lookupOutput op.n).getD {}
          t.setOutput op.n { o with m_forced_include := true }
        else t
      traceTopLevelGo wallets chain fuel set_forced rest (stSet st op.hash t) ws

structure FrozenTraceResult where
  txs : TraceState
  warnings : List String
  num_traced : Nat
  total_traced : Int
  num_searched : Nat

/-- traceFrozenOutputs (src/wallet/coincontrol.h lines 6209-6431): abort
with a fatal wallet-locked error unless every loaded wallet is fully
unlocked, then scan for top-level frozen outpoints, trace each one
recursively (fuel-bounded; `.ok none` models a run that exhausts every
depth bound), and fill in the remaining known outputs of traced
transactions. -/
def traceFrozenOutputs (wallets : List WalletView) (chain : ChainView) (fuel : Nat)
    (min_value mx : Int) (extra : List COutPoint) :
    Except String (Option FrozenTraceResult) :=
  match wallets.find? (fun w => w.isLocked || w.fUnlockForStakingOnly) with
  | some w => .error ("Error: Wallet " ++ w.name ++
      " is locked, please unlock all loaded wallets for this command.")
  | none =>
    let scan := scanTopLevel wallets chain min_value mx extra
    match traceTopLevelGo wallets chain fuel scan.set_forced scan.top_level
        [] scan.warnings with
    | none => .ok none
    | some (st, ws) =>
      let filled := fillKnownOutputs wallets chain st ws
      .ok (some { txs := filled.1, warnings := filled.2,
                  num_traced := scan.num_traced,
                  total_traced := scan.total_traced,
                  num_searched := scan.num_searched })

/-- The locked-wallet check reads only the name and lock flags of each
wallet: two wallet lists agreeing on those fields produce the same
locked-wallet lookup result, independently of any transaction records. -/
theorem find_locked_congr (l1 l2 : List WalletView)
    (h : l1.map (fun w => (w.name, w.isLocked, w.fUnlockForStakingOnly)) =
         l2.map (fun w => (w.name, w.isLocked, w.fUnlockForStakingOnly))) :
    Option.map WalletView.name
        (l1.find? (fun w => w.isLocked || w.fUnlockForStakingOnly)) =
      Option.map WalletView.name
        (l2.find? (fun w => w.isLocked || w.fUnlockForStakingOnly)) := by
  induction l1 generalizing l2 with
  | nil =>
    cases l2 with
    | nil => rfl
    | cons b t => simp at h
  | cons a t1 ih =>
    cases l2 with
    | nil => simp at h
    | cons b t2 =>
      simp only [List.map_cons, List.cons.injEq, Prod.mk.injEq] at h
      obtain ⟨⟨hn, hl, hu⟩, ht⟩ := h
      simp only [List.find?]
      rw [hl, hu]
      cases hp : (b.isLocked || b.fUnlockForStakingOnly) with
      | true => simp [hp, hn]
      | false => simpa [hp] using ih t2 ht

/-- C5: if any loaded wallet is locked or unlocked for staking only, the
whole trace aborts with the fatal wallet-locked error naming a locked
wallet — for every chain view, fuel, threshold and extra-output set, and
equally for any wallet list with the same names and lock flags regardless
of its transaction records — so no record is visited and no trace output
is produced. -/
theorem C5_locked_wallet_aborts_trace
    (wallets : List WalletView) (w : WalletView) (hw : w ∈ wallets)
    (hlock : (w.isLocked || w.fUnlockForStakingOnly) = true) :
    ∃ wl, wl ∈ wallets ∧ (wl.isLocked || wl.fUnlockForStakingOnly) = true ∧
      ∀ (wallets2 : List WalletView),
        wallets2.map (fun x => (x.name, x.isLocked, x.fUnlockForStakingOnly)) =
          wallets.map (fun x => (x.name, x.isLocked, x.fUnlockForStakingOnly)) →
        ∀ (chain : ChainView) (fuel : Nat) (min_value mx : Int)
          (extra : List COutPoint),
          traceFrozenOutputs wallets2 chain fuel min_value mx extra =
            .error ("Error: Wallet " ++ wl.name ++
              " is locked, please unlock all loaded wallets for this command.") := by
  have hsome : (wallets.find? (fun x => x.isLocked || x.fUnlockForStakingOnly)).isSome := by
    rw [List.find?_isSome]
    exact ⟨w, hw, hlock⟩
  obtain ⟨wl, hfind⟩ := Option.isSome_iff_exists.mp hsome
  have hp : (wl.isLocked || wl.fUnlockForStakingOnly) = true := by
    simpa using List.find?_some hfind
  refine ⟨wl, List.mem_of_find?_eq_some hfind, hp, ?_⟩
  intro wallets2 hsame chain fuel min_value mx extra
  have hname := find_locked_congr wallets2 wallets hsame
  rw [hfind] at hname
  cases hfind2 : wallets2.find? (fun x => x.isLocked || x.fUnlockForStakingOnly) with
  | none => rw [hfind2] at hname; cases hname
  | some wl2 =>
    rw [hfind2] at hname
    have hname2 : wl2.name = wl.name := by
      simpa using hname
    unfold traceFrozenOutputs
    rw [hfind2]
    simp only [hname2]

/-- A locked wallet holding no records. -/
def c5Locked : WalletView :=
  { name := "cold", isLocked := true, fUnlockForStakingOnly := false,
    mapRecords := [], readStoredTx := fun _ => none,
    isSpent := fun _ _ => false, getKey := fun _ => none }

/-- C5 witness: with the locked wallet loaded alongside an unlocked one,
the trace returns the fatal wallet-locked error, also after swapping in a
wallet list that differs only in its records. -/
theorem C5_locked_wallet_aborts_trace_witness :
    ∃ wl, wl ∈ [c5Locked, c4Wallet] ∧
      (wl.isLocked || wl.fUnlockForStakingOnly) = true ∧
      ∀ (wallets2 : List WalletView),
        wallets2.map (fun x => (x.name, x.isLocked, x.fUnlockForStakingOnly)) =
          [c5Locked, c4Wallet].map (fun x => (x.name, x.isLocked, x.fUnlockForStakingOnly)) →
        ∀ (chain : ChainView) (fuel : Nat) (min_value mx : Int)
          (extra : List COutPoint),
          traceFrozenOutputs wallets2 chain fuel min_value mx extra =
            .error ("Error: Wallet " ++ wl.name ++
              " is locked, please unlock all loaded wallets for this command.") :=
  C5_locked_wallet_aborts_trace [c5Locked, c4Wallet] c5Locked (by simp) (by decide)

theorem walk_single_some
    (f : COutPoint → Nat → TraceState → List String → Option (TraceState × List String))
    (chain : ChainView) (op : COutPoint) (sb : Nat) (w : WalletView)
    (st : TraceState) (ws : List String) (st2 : TraceState) (ws2 : List String)
    (h : tracePrevoutWalletBody (traceVinGo f) chain w op sb st ws = some (st2, ws2)) :
    walkWalletsGo f chain op sb [w] st ws = some (st2, ws2) := by
  simp only [walkWalletsGo, h]

/-- A plain-input record whose stored transaction is missing: the body
records the transaction, appends the warning naming it, and returns
normally. -/
theorem body_stored_missing
    (f : COutPoint → Nat → TraceState → List String → Option (TraceState × List String))
    (chain : ChainView) (w : WalletView) (op : COutPoint) (sb : Nat)
    (st : TraceState) (ws : List String) (rtx : CTransactionRecord) (r : COutputRecord)
    (hr : recFind w.mapRecords op.hash = some rtx)
    (ha : (rtx.nFlags.land ORF_ANON_IN != 0) = false)
    (hb : (rtx.nFlags.land ORF_BLIND_IN != 0) = false)
    (hg : rtx.GetOutput op.n = some r)
    (hs : w.readStoredTx op.hash = none) :
    tracePrevoutWalletBody (traceVinGo f) chain w op sb st ws =
      some (stSet st op.hash
        { stGetOr st op.hash with
          m_input_type := OUTPUT_STANDARD,
          m_wallet_name := appendWalletName (stGetOr st op.hash).m_wallet_name w.name },
        ws ++ ["ReadStoredTx failed " ++ toString op.hash]) := by
  unfold tracePrevoutWalletBody
  simp only [hr]
  rw [ha, hb]
  simp only [Bool.false_eq_true, if_false]
  rw [if_neg (show ¬ OUTPUT_STANDARD ≠ OUTPUT_STANDARD by simp)]
  simp only [hg, hs]

/-- C6 part for traceFrozenPrevout: the same failure is non-fatal in the
recursive tracer itself. -/
theorem trace_stored_missing
    (wallets : List WalletView) (chain : ChainView) (fuel : Nat)
    (w : WalletView) (op : COutPoint) (sb : Nat)
    (st : TraceState) (ws : List String) (rtx : CTransactionRecord) (r : COutputRecord)
    (hwl : wallets = [w])
    (hfind : stFind st op.hash = none)
    (hr : recFind w.mapRecords op.hash = some rtx)
    (ha : (rtx.nFlags.land ORF_ANON_IN != 0) = false)
    (hb : (rtx.nFlags.land ORF_BLIND_IN != 0) = false)
    (hg : rtx.GetOutput op.n = some r)
    (hs : w.readStoredTx op.hash = none) :
    traceFrozenPrevout wallets chain (fuel + 1) op sb st ws =
      some (stSet st op.hash
        { stGetOr st op.hash with
          m_input_type := OUTPUT_STANDARD,
          m_wallet_name := appendWalletName (stGetOr st op.hash).m_wallet_name w.name },
        ws ++ ["ReadStoredTx failed " ++ toString op.hash]) := by
  subst hwl
  rw [trace_succ_eq_walk _ _ _ _ _ _ _ (by intro t ht; rw [hfind] at ht; cases ht)]
  exact walk_single_some _ chain op sb w st ws _ _
    (body_stored_missing _ chain w op sb st ws rtx r hr ha hb hg hs)

/-- The fill loop skips a record with missing stored data, appending only
the warning naming the transaction, and continues with the remaining
records unchanged. -/
theorem fillWallet_stored_missing
    (w : WalletView) (chain : ChainView) (txid : Nat) (rtx : CTransactionRecord)
    (rest : List (Nat × CTransactionRecord)) (st : TraceState) (ws : List String)
    (t : TracedTx)
    (ht : stFind st txid = some t)
    (hs : w.readStoredTx txid = none) :
    fillWalletGo w chain ((txid, rtx) :: rest) st ws =
      fillWalletGo w chain rest st (ws ++ ["ReadStoredTx failed " ++ toString txid]) := by
  simp only [fillWalletGo, ht, hs]

/-- The fill loop records an owned RingCT output whose anon-index link is
unreadable: a warning naming transaction and output is appended, the
output is still added (with the -1 unresolved index). -/
theorem fillOutputs_link_missing
    (w : WalletView) (chain : ChainView) (stx : StoredTxView) (txid : Nat)
    (r : COutputRecord) (t : TracedTx) (ws : List String) (b : Nat)
    (htyp : r.nType = OUTPUT_RINGCT)
    (howned : (r.nFlags.land ORF_OWNED == 0) = false)
    (hnew : t.lookupOutput r.n = none)
    (hlink : chain.readRCTOutputLink (stx.anonPk r.n) = none)
    (hblind : stx.getBlind r.n = some b) :
    fillOutputsForRecord w chain stx txid [r] t ws =
      (t.setOutput r.n
        { m_type := OUTPUT_RINGCT, m_value := r.nValue, m_n := (r.n : Int),
          m_anon_index := -1, m_is_spent := w.isSpent txid r.n,
          m_blinding_factor := b },
       ws ++ ["ReadRCTOutputLink failed " ++ toString txid ++ " " ++ toString r.n]) := by
  unfold fillOutputsForRecord
  simp only [List.foldl_cons, List.foldl_nil]
  rw [if_neg (by simp [htyp, howned, OUTPUT_RINGCT, OUTPUT_CT])]
  rw [if_neg (by simp [hnew])]
  rw [show (r.nType == OUTPUT_RINGCT) = true by simp [htyp]]
  simp only [hlink, hblind, if_true]

/-- The fill loop records an owned CT output whose blinding factor is
missing: a warning naming transaction and output is appended, the output
is still added with the null blinding factor. -/
theorem fillOutputs_blind_missing
    (w : WalletView) (chain : ChainView) (stx : StoredTxView) (txid : Nat)
    (r : COutputRecord) (t : TracedTx) (ws : List String)
    (htyp : r.nType = OUTPUT_CT)
    (howned : (r.nFlags.land ORF_OWNED == 0) = false)
    (hnew : t.lookupOutput r.n = none)
    (hblind : stx.getBlind r.n = none) :
    fillOutputsForRecord w chain stx txid [r] t ws =
      (t.setOutput r.n
        { m_type := OUTPUT_CT, m_value := r.nValue, m_n := (r.n : Int),
          m_anon_index := -1, m_is_spent := w.isSpent txid r.n,
          m_blinding_factor := 0 },
       ws ++ ["GetBlind failed " ++ toString txid ++ " " ++ toString r.n]) := by
  unfold fillOutputsForRecord
  simp only [List.foldl_cons, List.foldl_nil]
  rw [if_neg (by simp [htyp, howned, OUTPUT_RINGCT, OUTPUT_CT])]
  rw [if_neg (by simp [hnew])]
  rw [show (r.nType == OUTPUT_RINGCT) = false by simp [htyp, OUTPUT_CT, OUTPUT_RINGCT]]
  simp only [hblind, Bool.false_eq_true, if_false]

/-- C6: missing stored-transaction data, unreadable anon-index links and
missing blinding factors never abort a frozen-output trace. (1) In the
recursive tracer, a record whose stored transaction is missing yields a
normal return with a warning naming the transaction. (2) In the fill loop,
such a record is skipped with only that warning and the walk continues
with the remaining records. (3) An unreadable anon-index link appends a
warning naming transaction and output, and the output is still recorded.
(4) A missing blinding factor appends a warning naming transaction and
output, and the output is still recorded with the null blind. -/
theorem C6_trace_warnings_nonfatal :
    (∀ (wallets : List WalletView) (chain : ChainView) (fuel : Nat)
        (w : WalletView) (op : COutPoint) (sb : Nat)
        (st : TraceState) (ws : List String) (rtx : CTransactionRecord)
        (r : COutputRecord),
      wallets = [w] →
      stFind st op.hash = none →
      recFind w.mapRecords op.hash = some rtx →
      (rtx.nFlags.land ORF_ANON_IN != 0) = false →
      (rtx.nFlags.land ORF_BLIND_IN != 0) = false →
      rtx.GetOutput op.n = some r →
      w.readStoredTx op.hash = none →
      traceFrozenPrevout wallets chain (fuel + 1) op sb st ws =
        some (stSet st op.hash
          { stGetOr st op.hash with
            m_input_type := OUTPUT_STANDARD,
            m_wallet_name := appendWalletName (stGetOr st op.hash).m_wallet_name w.name },
          ws ++ ["ReadStoredTx failed " ++ toString op.hash])) ∧
    (∀ (w : WalletView) (chain : ChainView) (txid : Nat) (rtx : CTransactionRecord)
        (rest : List (Nat × CTransactionRecord)) (st : TraceState) (ws : List String)
        (t : TracedTx),
      stFind st txid = some t →
      w.readStoredTx txid = none →
      fillWalletGo w chain ((txid, rtx) :: rest) st ws =
        fillWalletGo w chain rest st (ws ++ ["ReadStoredTx failed " ++ toString txid])) ∧
    (∀ (w : WalletView) (chain : ChainView) (stx : StoredTxView) (txid : Nat)
        (r : COutputRecord) (t : TracedTx) (ws : List String) (b : Nat),
      r.nType = OUTPUT_RINGCT →
      (r.nFlags.land ORF_OWNED == 0) = false →
      t.lookupOutput r.n = none →
      chain.readRCTOutputLink (stx.anonPk r.n) = none →
      stx.getBlind r.n = some b →
      fillOutputsForRecord w chain stx txid [r] t ws =
        (t.setOutput r.n
          { m_type := OUTPUT_RINGCT, m_value := r.nValue, m_n := (r.n : Int),
            m_anon_index := -1, m_is_spent := w.isSpent txid r.n,
            m_blinding_factor := b },
         ws ++ ["ReadRCTOutputLink failed " ++ toString txid ++ " " ++ toString r.n])) ∧
    (∀ (w : WalletView) (chain : ChainView) (stx : StoredTxView) (txid : Nat)
        (r : COutputRecord) (t : TracedTx) (ws : List String),
      r.nType = OUTPUT_CT →
      (r.nFlags.land ORF_OWNED == 0) = false →
      t.lookupOutput r.n = none →
      stx.getBlind r.n = none →
      fillOutputsForRecord w chain stx txid [r] t ws =
        (t.setOutput r.n
          { m_type := OUTPUT_CT, m_value := r.nValue, m_n := (r.n : Int),
            m_anon_index := -1, m_is_spent := w.isSpent txid r.n,
            m_blinding_factor := 0 },
         ws ++ ["GetBlind failed " ++ toString txid ++ " " ++ toString r.n])) := by
  refine ⟨?_, ?_, ?_, ?_⟩
  · intro wallets chain fuel w op sb st ws rtx r hwl hfind hr ha hb hg hs
    exact trace_stored_missing wallets chain fuel w op sb st ws rtx r hwl hfind hr ha hb hg hs
  · intro w chain txid rtx rest st ws t ht hs
    exact fillWallet_stored_missing w chain txid rtx rest st ws t ht hs
  · intro w chain stx txid r t ws b htyp howned hnew hlink hblind
    exact fillOutputs_link_missing w chain stx txid r t ws b htyp howned hnew hlink hblind
  · intro w chain stx txid r t ws htyp howned hnew hblind
    exact fillOutputs_blind_missing w chain stx txid r t ws htyp howned hnew hblind

/-- A plain-input record with one owned CT output. -/
def c6Rtx : CTransactionRecord :=
  { nFlags := 0,
    vout := [{ nType := OUTPUT_CT, nFlags := ORF_OWNED, n := 0, nValue := 777 }] }

/-- A wallet whose stored-transaction database is empty. -/
def c6Wallet : WalletView :=
  { name := "w6", isLocked := false, fUnlockForStakingOnly := false,
    mapRecords := [(3, c6Rtx)],
    readStoredTx := fun _ => none, isSpent := fun _ _ => false,
    getKey := fun _ => none }

/-- A stored-transaction view with an unreadable blind for output 0 and a
readable blind 42 for output 1. -/
def c6Stx : StoredTxView :=
  { isRingCtOut := fun _ => true, anonPk := fun n => n + 100,
    getBlind := fun n => if n == 1 then some 42 else none }

/-- C6 witness: the four failure kinds at concrete inputs. -/
theorem C6_trace_warnings_nonfatal_witness :
    (traceFrozenPrevout [c6Wallet] c4Chain 1 ⟨3, 0⟩ 0 [] [] =
      some (stSet [] 3
        { stGetOr [] 3 with
          m_input_type := OUTPUT_STANDARD,
          m_wallet_name := appendWalletName (stGetOr [] 3).m_wallet_name c6Wallet.name },
        [] ++ ["ReadStoredTx failed " ++ toString (3 : Nat)])) ∧
    (fillWalletGo c6Wallet c4Chain [(3, { nFlags := 0 })] [(3, {})] ["w"] =
      fillWalletGo c6Wallet c4Chain [] [(3, {})]
        (["w"] ++ ["ReadStoredTx failed " ++ toString (3 : Nat)])) ∧
    (fillOutputsForRecord c6Wallet c4Chain c6Stx 3
        [{ nType := OUTPUT_RINGCT, nFlags := ORF_OWNED, n := 1, nValue := 5 }] {} [] =
      (TracedTx.setOutput {} 1
        { m_type := OUTPUT_RINGCT, m_value := 5, m_n := (1 : Int),
          m_anon_index := -1, m_is_spent := c6Wallet.isSpent 3 1,
          m_blinding_factor := 42 },
       [] ++ ["ReadRCTOutputLink failed " ++ toString (3 : Nat) ++ " " ++
         toString (1 : Nat)])) ∧
    (fillOutputsForRecord c6Wallet c4Chain c6Stx 3
        [{ nType := OUTPUT_CT, nFlags := ORF_OWNED, n := 0, nValue := 6 }] {} [] =
      (TracedTx.setOutput {} 0
        { m_type := OUTPUT_CT, m_value := 6, m_n := (0 : Int),
          m_anon_index := -1, m_is_spent := c6Wallet.isSpent 3 0,
          m_blinding_factor := 0 },
       [] ++ ["GetBlind failed " ++ toString (3 : Nat) ++ " " ++
         toString (0 : Nat)])) := by
  refine ⟨?_, ?_, ?_, ?_⟩
  · exact C6_trace_warnings_nonfatal.1 [c6Wallet] c4Chain 0 c6Wallet ⟨3, 0⟩ 0 [] []
      c6Rtx { nType := OUTPUT_CT, nFlags := ORF_OWNED, n := 0, nValue := 777 }
      rfl rfl rfl (by decide) (by decide) rfl rfl
  · exact C6_trace_warnings_nonfatal.2.1 c6Wallet c4Chain 3 { nFlags := 0 } [] [(3, {})]
      ["w"] {} rfl rfl
  · exact C6_trace_warnings_nonfatal.2.2.1 c6Wallet c4Chain c6Stx 3
      { nType := OUTPUT_RINGCT, nFlags := ORF_OWNED, n := 1, nValue := 5 } {} [] 42
      rfl (by decide) rfl rfl rfl
  · exact C6_trace_warnings_nonfatal.2.2.2 c6Wallet c4Chain c6Stx 3
      { nType := OUTPUT_CT, nFlags := ORF_OWNED, n := 0, nValue := 6 } {} []
      rfl (by decide) rfl rfl
